import Mathlib

/-!
Verification development for the unvariance/collector repository.

The definitions below are shallow embeddings of the Rust source:
* `compute_full_cgroup_path` and its helper mirror `src/crates/nri/src/lib.rs`;
* `pids_for_path` mirrors `src/crates/nri-resctrl-plugin/src/pid_source.rs`
  (the target_os = "linux" implementation), with the filesystem abstracted
  as a pair of oracles (existence check and file read);
* the `plugin` namespace mirrors the `ResctrlPlugin` state machine of
  `src/crates/nri-resctrl-plugin/src/lib.rs`, with the resctrl filesystem
  calls abstracted as result oracles (the `resctrl` crate itself performs
  them; the plugin only branches on their results);
* the `collector` namespace mirrors `PerfEventProcessor` of
  `src/crates/collector/src/main.rs`; the task table and timeslot
  containers whose source files are not part of the snapshot are modelled
  from the specification (sections 4.1-4.3) and marked as such.
-/

namespace CgroupPath

/-- Substring test on the underlying character lists: `hasSub pat l` is true
iff `pat` occurs as a contiguous sublist of `l`.  Mirrors Rust
`str::contains` for the plain-pattern case. -/
def listHasPre : List Char → List Char → Bool
  | [], _ => true
  | _ :: _, [] => false
  | a :: as, b :: bs => a = b && listHasPre as bs

def listHasSub (pat : List Char) : List Char → Bool
  | [] => listHasPre pat []
  | b :: bs => listHasPre pat (b :: bs) || listHasSub pat bs

def strContains (s pat : String) : Bool :=
  listHasSub pat.data s.data

/-- `str::starts_with` (structurally recursive so that proofs can evaluate
it; Lean's own `String.startsWith` does not kernel-reduce). -/
def strStartsWith (s pat : String) : Bool :=
  listHasPre pat.data s.data

/-- Split a character list at every occurrence of `c`, keeping empty
pieces: the semantics of Rust `str::split(c)`. -/
def splitChar (c : Char) : List Char → List (List Char)
  | [] => [[]]
  | x :: xs =>
    match splitChar c xs with
    | [] => if x = c then [[], []] else [[x]]
    | h :: t => if x = c then [] :: h :: t else (x :: h) :: t

/-- Rust `str::split(c).collect::<Vec<_>>()`. -/
def strSplit (s : String) (c : Char) : List String :=
  (splitChar c s.data).map fun l => ⟨l⟩

/-- Mirrors the local helper `ensure_cgroup_prefix` inside
`compute_full_cgroup_path` (src/crates/nri/src/lib.rs:250-258): root a path
at /sys/fs/cgroup without duplicating slashes. -/
def ensureCgroupRoot (path : String) : String :=
  if strStartsWith path "/sys/fs/cgroup" then path
  else if strStartsWith path "/" then "/sys/fs/cgroup" ++ path
  else "/sys/fs/cgroup/" ++ path

/-- Mirrors `compute_full_cgroup_path` (src/crates/nri/src/lib.rs:227-282).
The two string arguments are the container's `linux.cgroups_path` and the
pod's `linux.cgroup_parent`, each already defaulted to `""` when the
corresponding protobuf field is absent (`unwrap_or("")` in the source). -/
def compute_full_cgroup_path (containerCgroupsPath podCgroupParent : String) : String :=
  if containerCgroupsPath = "" ∧ podCgroupParent = "" then ""
  else
    let parts := strSplit containerCgroupsPath ':'
    if 3 ≤ parts.length ∧ podCgroupParent ≠ "" then
      let runtime := parts.getD 1 ""
      let containerId := parts.getD 2 ""
      let fullParent := ensureCgroupRoot podCgroupParent
      if strContains fullParent ".slice" then
        fullParent ++ "/" ++ runtime ++ "-" ++ containerId ++ ".scope"
      else
        fullParent ++ "/" ++ containerId
    else
      ensureCgroupRoot containerCgroupsPath

/-- Spec-side restatement of claim C6's description of the preferred branch,
written from the specification's words (for comparison with the source
function): systemd driver detection by ".slice" in the prefix-normalized
parent, scope naming `<runtime>-<id>.scope`, cgroupfs naming `<id>`. -/
def specPreferredPath (containerCgroupsPath podCgroupParent : String) : String :=
  let parts := strSplit containerCgroupsPath ':' 
  let runtime := parts.getD 1 ""
  let containerId := parts.getD 2 ""
  let normalizedParent := ensureCgroupRoot podCgroupParent
  if strContains normalizedParent ".slice" then
    normalizedParent ++ "/" ++ runtime ++ "-" ++ containerId ++ ".scope"
  else
    normalizedParent ++ "/" ++ containerId

end CgroupPath

namespace PidSource

/-- Kinds of io::Error sources that the pid source distinguishes or passes
through (src/crates/nri-resctrl-plugin/src/pid_source.rs). `custom` stands
for any other concrete OS error the underlying read may produce. -/
inductive IoErr where
  | invalidInput
  | enoent
  | custom (code : Nat)
  deriving DecidableEq, Repr

/-- The `resctrl::Error::Io { path, source }` variant, the only error variant
`pids_for_path` produces. -/
inductive RcIoError where
  | Io (path : String) (source : IoErr)
  deriving DecidableEq, Repr

/-- Filesystem oracle standing for `Path::exists` and `std::fs::read_to_string`. -/
structure Fs where
  pathExists : String → Bool
  readFile : String → Except IoErr String

/-- Digit-string value: `some n` iff the list is a non-empty run of ASCII
digits. Part of the model of Rust `str::parse::<i32>`. -/
def digitsVal (l : List Char) : Option Nat :=
  if l = [] then none
  else if l.all Char.isDigit then
    some (l.foldl (fun a c => a * 10 + (c.toNat - 48)) 0)
  else none

/-- Model of Rust `str::parse::<i32>`: optional sign, decimal digits, i32
range check. -/
def parseI32 (s : String) : Option Int :=
  match s.data with
  | [] => none
  | '+' :: rest =>
    (digitsVal rest).bind fun n => if n ≤ 2 ^ 31 - 1 then some (Int.ofNat n) else none
  | '-' :: rest =>
    (digitsVal rest).bind fun n => if n ≤ 2 ^ 31 then some (-(Int.ofNat n)) else none
  | _ =>
    (digitsVal s.data).bind fun n => if n ≤ 2 ^ 31 - 1 then some (Int.ofNat n) else none

/-- Strip one trailing carriage return (the `\r\n` case of `str::lines`). -/
def stripCr (l : List Char) : List Char :=
  if l.getLast? = some '\r' then l.dropLast else l

/-- Model of Rust `str::lines`: split at `\n`, recognize `\r\n`, final line
ending optional. -/
def rustLines (s : String) : List String :=
  if s = "" then []
  else
    let parts := CgroupPath.splitChar '\n' s.data
    let parts := if parts.getLast? = some [] then parts.dropLast else parts
    parts.map fun l => ⟨stripCr l⟩

/-- Whitespace trim of `str::trim` (ASCII whitespace suffices for the procs
file contents this code reads). -/
def trimChars (s : String) : String :=
  ⟨((s.data.dropWhile Char.isWhitespace).reverse.dropWhile Char.isWhitespace).reverse⟩

/-- The pid-collecting step of `pids_for_path`:
`content.lines().filter_map(|l| l.trim().parse::<i32>().ok()).collect()`. -/
def parsePids (content : String) : List Int :=
  (rustLines content).filterMap fun l => parseI32 (trimChars l)

/-- The candidate loop of `pids_for_path`
(src/crates/nri-resctrl-plugin/src/pid_source.rs:43-67): try each candidate
file name in order; the first candidate that exists is read, and a read
error breaks the loop and is reported with path `<dir>/cgroup.procs`; if no
candidate exists the fallback error is ENOENT at the same path.
`joinPath` is `Path::join` for the paths this model handles. -/
def joinPath (dir fname : String) : String := dir ++ "/" ++ fname

def tryCandidates (fs : Fs) (dir : String) : List String → Except RcIoError (List Int)
  | [] => .error (.Io (joinPath dir "cgroup.procs") .enoent)
  | fname :: rest =>
    if fs.pathExists (joinPath dir fname) then
      match fs.readFile (joinPath dir fname) with
      | .ok content => .ok (parsePids content)
      | .error e => .error (.Io (joinPath dir "cgroup.procs") e)
    else
      tryCandidates fs dir rest

/-- Mirrors `RealCgroupPidSource::pids_for_path`
(src/crates/nri-resctrl-plugin/src/pid_source.rs:22-68). -/
def pids_for_path (fs : Fs) (cgroupPath : String) : Except RcIoError (List Int) :=
  if cgroupPath = "" then
    .error (.Io "<cgroup path>" .invalidInput)
  else if ¬ fs.pathExists cgroupPath then
    .error (.Io cgroupPath .enoent)
  else
    tryCandidates fs cgroupPath ["cgroup.procs", "cgroups.procs"]

end PidSource

/-- Association-list lookup (model of `HashMap::get`). -/
def alookup {κ α : Type} [DecidableEq κ] : List (κ × α) → κ → Option α
  | [], _ => none
  | (k, v) :: rest, key => if k = key then some v else alookup rest key

/-- Association-list insert-or-replace (model of `HashMap::insert`). -/
def aupdate {κ α : Type} [DecidableEq κ] : List (κ × α) → κ → α → List (κ × α)
  | [], key, v => [(key, v)]
  | (k, w) :: rest, key, v =>
    if k = key then (key, v) :: rest else (k, w) :: aupdate rest key v

/-- Association-list removal (model of `HashMap::remove`). -/
def aremove {κ α : Type} [DecidableEq κ] : List (κ × α) → κ → List (κ × α)
  | [], _ => []
  | (k, w) :: rest, key => if k = key then rest else (k, w) :: aremove rest key

namespace Plugin

/-- `ResctrlGroupState` (src/crates/nri-resctrl-plugin/src/lib.rs:30-35). -/
inductive ResctrlGroupState where
  | Exists (path : String)
  | Failed
  deriving DecidableEq, Repr

/-- `PodState` (src/crates/nri-resctrl-plugin/src/lib.rs:89-93). -/
structure PodState where
  group_state : ResctrlGroupState
  total_containers : Nat
  reconciled_containers : Nat
  deriving DecidableEq, Repr

/-- `ContainerSyncState` (src/crates/nri-resctrl-plugin/src/lib.rs:96-101). -/
inductive ContainerSyncState where
  | NoPod
  | Partial
  | Reconciled
  deriving DecidableEq, Repr

/-- `ContainerState` (src/crates/nri-resctrl-plugin/src/lib.rs:104-109). -/
structure ContainerState where
  pod_uid : String
  cgroup_path : String
  state : ContainerSyncState
  deriving DecidableEq, Repr

/-- `InnerState` (src/crates/nri-resctrl-plugin/src/lib.rs:112-115); the two
HashMaps are modelled as association lists with distinct keys. -/
structure InnerState where
  pods : List (String × PodState)
  containers : List (String × ContainerState)
  deriving DecidableEq, Repr

/-- `PodResctrlEvent` (src/crates/nri-resctrl-plugin/src/lib.rs:39-59). -/
inductive PodResctrlEvent where
  | AddOrUpdate (pod_uid : String) (group_state : ResctrlGroupState)
      (total_containers reconciled_containers : Nat)
  | Removed (pod_uid : String)
  deriving DecidableEq, Repr

/-- The resctrl error kinds the plugin branches on: `Capacity` is handled
specially in `retry_all_once`; all other `resctrl::Error` variants (`Io`,
`PidGone`, `GroupGone`, ...) are treated uniformly by the plugin and are
collapsed into `Other` with an abstract tag. -/
inductive RError where
  | Capacity
  | Other (tag : Nat)
  deriving DecidableEq, Repr

/-- `PluginError` (src/crates/nri-resctrl-plugin/src/lib.rs:151-158). -/
inductive PluginError where
  | PodNotFound
  | ContainerNotFound
  | Resctrl (e : RError)
  deriving DecidableEq, Repr

/-- Filesystem-side resctrl calls a plugin method performs, recorded as a
trace so that "does not touch the filesystem" claims are expressible. -/
inductive FsOp where
  | createGroup (pod_uid : String)
  | deleteGroup (path : String)
  | reconcileGroup (group_path : String)
  deriving DecidableEq, Repr

/-- Result of one plugin method: returned value, state after the commit,
events pushed to the outbound channel (in emission order; the bounded
channel's drop-on-full is not modelled because all claims are about
emission attempts), and the resctrl filesystem calls performed. -/
structure MethodOut (α : Type) where
  result : α
  state : InnerState
  events : List PodResctrlEvent
  fsOps : List FsOp
  deriving DecidableEq, Repr

/-- `emit_pod_add_or_update` (src/crates/nri-resctrl-plugin/src/lib.rs:208-216). -/
def emitAddOrUpdate (uid : String) (ps : PodState) : PodResctrlEvent :=
  .AddOrUpdate uid ps.group_state ps.total_containers ps.reconciled_containers

/-- `ResctrlPlugin::handle_new_pod` (src/crates/nri-resctrl-plugin/src/lib.rs:219-249).
`createRes` is the outcome of the `resctrl.create_group(pod_uid)` call, which
is only performed when the pod is not yet known. -/
def handle_new_pod (st : InnerState) (uid : String)
    (createRes : Except RError String) : MethodOut Unit :=
  match alookup st.pods uid with
  | some ps => ⟨(), st, [emitAddOrUpdate uid ps], []⟩
  | none =>
    let gs := match createRes with
      | .ok p => ResctrlGroupState.Exists p
      | .error _ => ResctrlGroupState.Failed
    let ps : PodState := ⟨gs, 0, 0⟩
    ⟨(), { st with pods := aupdate st.pods uid ps },
      [emitAddOrUpdate uid ps], [.createGroup uid]⟩

/-- `ResctrlPlugin::handle_new_container`
(src/crates/nri-resctrl-plugin/src/lib.rs:251-355). The arguments carry the
container's `linux.cgroups_path` and the pod's `linux.cgroup_parent` (both
defaulted to "" when absent); `reconcileRes` is the outcome of the
`reconcile_group` call (number of missing pids on success), performed only
in the Exists branch. -/
def handle_new_container (st : InnerState) (uid cid containerCgroupsPath podParent : String)
    (reconcileRes : Except RError Nat) : MethodOut Unit :=
  if (alookup st.containers cid).isSome then
    -- duplicate container: log error and return
    ⟨(), st, [], []⟩
  else
    match alookup st.pods uid with
    | none =>
      -- no pod yet: record the container as NoPod and return
      let full := CgroupPath.compute_full_cgroup_path containerCgroupsPath ""
      ⟨(), { st with containers := aupdate st.containers cid ⟨uid, full, .NoPod⟩ }, [], []⟩
    | some ps =>
      match ps.group_state with
      | .Failed =>
        let full := CgroupPath.compute_full_cgroup_path containerCgroupsPath podParent
        let ps1 := { ps with total_containers := ps.total_containers + 1 }
        ⟨(), { pods := aupdate st.pods uid ps1,
               containers := aupdate st.containers cid ⟨uid, full, .Partial⟩ },
          [emitAddOrUpdate uid ps1], []⟩
      | .Exists group_path =>
        let full := CgroupPath.compute_full_cgroup_path containerCgroupsPath podParent
        let newState := match reconcileRes with
          | .ok 0 => ContainerSyncState.Reconciled
          | _ => ContainerSyncState.Partial
        let containers1 := aupdate st.containers cid ⟨uid, full, newState⟩
        -- `if let Some(ps) = st.pods.get_mut(&pod_uid)`: re-lookup after relock
        match alookup st.pods uid with
        | some ps2 =>
          let ps1 := { ps2 with
            total_containers := ps2.total_containers + 1,
            reconciled_containers := ps2.reconciled_containers +
              (if newState = ContainerSyncState.Reconciled then 1 else 0) }
          ⟨(), { pods := aupdate st.pods uid ps1, containers := containers1 },
            [emitAddOrUpdate uid ps1], [.reconcileGroup group_path]⟩
        | none =>
          ⟨(), { st with containers := containers1 }, [], [.reconcileGroup group_path]⟩

/-- `state_change` for `REMOVE_POD_SANDBOX`
(src/crates/nri-resctrl-plugin/src/lib.rs:668-701). -/
def remove_pod_sandbox (st : InnerState) (uid : String) : MethodOut Unit :=
  let groupPath := match alookup st.pods uid with
    | some ps =>
      match ps.group_state with
      | .Exists p => some p
      | .Failed => none
    | none => none
  let st1 : InnerState :=
    { pods := aremove st.pods uid,
      containers := st.containers.filter fun kv => kv.2.pod_uid ≠ uid }
  let fsOps := match groupPath with
    | some p => [FsOp.deleteGroup p]
    | none => []
  ⟨(), st1, [.Removed uid], fsOps⟩

/-- `state_change` for `REMOVE_CONTAINER`
(src/crates/nri-resctrl-plugin/src/lib.rs:703-723). `uid` is the uid of the
pod object carried by the event, which the code does not cross-check
against the removed container's recorded pod. -/
def remove_container (st : InnerState) (uid cid : String) : MethodOut Unit :=
  let oldState := (alookup st.containers cid).map (·.state)
  let containers1 := aremove st.containers cid
  match alookup st.pods uid with
  | none => ⟨(), { st with containers := containers1 }, [], []⟩
  | some ps =>
    let ps1 : PodState :=
      { ps with
        total_containers :=
          if oldState.any (fun s => s != ContainerSyncState.NoPod)
          then ps.total_containers - 1 else ps.total_containers,
        reconciled_containers :=
          if oldState = some ContainerSyncState.Reconciled
          then ps.reconciled_containers - 1 else ps.reconciled_containers }
    ⟨(), { pods := aupdate st.pods uid ps1, containers := containers1 },
      [emitAddOrUpdate uid ps1], []⟩

/-- `ResctrlPlugin::retry_group_creation`
(src/crates/nri-resctrl-plugin/src/lib.rs:359-406). `createRes` is the
outcome of `create_group`, performed only when the snapshot shows Failed. -/
def retry_group_creation (st : InnerState) (uid : String)
    (createRes : Except RError String) :
    MethodOut (Except PluginError ResctrlGroupState) :=
  match alookup st.pods uid with
  | none => ⟨.error .PodNotFound, st, [], []⟩
  | some ps =>
    match ps.group_state with
    | .Exists p => ⟨.ok (.Exists p), st, [], []⟩
    | .Failed =>
      match createRes with
      | .error e => ⟨.error (.Resctrl e), st, [], [.createGroup uid]⟩
      | .ok path =>
        -- re-check under lock (in this sequential model nothing changed)
        match alookup st.pods uid with
        | some ps2 =>
          match ps2.group_state with
          | .Failed =>
            let ps1 := { ps2 with group_state := ResctrlGroupState.Exists path }
            ⟨.ok (.Exists path), { st with pods := aupdate st.pods uid ps1 },
              [emitAddOrUpdate uid ps1], [.createGroup uid]⟩
          | .Exists p => ⟨.ok (.Exists p), st, [], [.createGroup uid]⟩
        | none =>
          -- pod disappeared concurrently: best-effort delete of the new group
          ⟨.error .PodNotFound, st, [], [.createGroup uid, .deleteGroup path]⟩

/-- `ResctrlPlugin::retry_container_reconcile`
(src/crates/nri-resctrl-plugin/src/lib.rs:410-478). `reconcileRes` is the
outcome of `reconcile_group` (missing count on success), performed only
when the snapshot shows a non-NoPod container whose pod group Exists. -/
def retry_container_reconcile (st : InnerState) (cid : String)
    (reconcileRes : Except RError Nat) :
    MethodOut (Except PluginError ContainerSyncState) :=
  match alookup st.containers cid with
  | none => ⟨.error .ContainerNotFound, st, [], []⟩
  | some cs =>
    if cs.state = ContainerSyncState.NoPod then ⟨.ok .NoPod, st, [], []⟩
    else
      match alookup st.pods cs.pod_uid with
      | none => ⟨.error .PodNotFound, st, [], []⟩
      | some ps =>
        match ps.group_state with
        | .Failed => ⟨.ok cs.state, st, [], []⟩
        | .Exists groupPath =>
          match reconcileRes with
          | .error e => ⟨.error (.Resctrl e), st, [], [.reconcileGroup groupPath]⟩
          | .ok missing =>
            let newState := if missing = 0 then ContainerSyncState.Reconciled
                            else ContainerSyncState.Partial
            if cs.state = ContainerSyncState.Partial ∧
               newState = ContainerSyncState.Reconciled then
              let ps1 := { ps with reconciled_containers := ps.reconciled_containers + 1 }
              ⟨.ok .Reconciled,
                { pods := aupdate st.pods cs.pod_uid ps1,
                  containers := aupdate st.containers cid { cs with state := .Reconciled } },
                [emitAddOrUpdate cs.pod_uid ps1], [.reconcileGroup groupPath]⟩
            else
              ⟨.ok cs.state, st, [], [.reconcileGroup groupPath]⟩

/-- Per-key result oracles for a whole `retry_all_once` pass. -/
structure RetryOracles where
  createRes : String → Except RError String
  reconcileRes : String → Except RError Nat

/-- Snapshot of Failed pod uids taken under the lock at the start of
`retry_all_once` (src/crates/nri-resctrl-plugin/src/lib.rs:484-509). -/
def failedSnapshot (st : InnerState) : List String :=
  st.pods.filterMap fun kv =>
    if kv.2.group_state = ResctrlGroupState.Failed then some kv.1 else none

/-- Snapshot of Partial container ids taken under the lock at the start of
`retry_all_once`. -/
def partialSnapshot (st : InnerState) : List String :=
  st.containers.filterMap fun kv =>
    if kv.2.state = ContainerSyncState.Partial then some kv.1 else none

/-- The group-creation retry loop of `retry_all_once`
(src/crates/nri-resctrl-plugin/src/lib.rs:511-519): Capacity breaks the
loop, PodNotFound continues, any other error returns it, success continues.
Returns the final state, emitted events, the uids actually attempted, and
the fatal error if one occurred. -/
def retry_group_loop (oracles : RetryOracles) :
    InnerState → List String →
    InnerState × List PodResctrlEvent × List String × Option PluginError
  | st, [] => (st, [], [], none)
  | st, uid :: rest =>
    let out := retry_group_creation st uid (oracles.createRes uid)
    match out.result with
    | .error (.Resctrl .Capacity) => (out.state, out.events, [uid], none)
    | .error .PodNotFound =>
      let (st2, evs, atts, r) := retry_group_loop oracles out.state rest
      (st2, out.events ++ evs, uid :: atts, r)
    | .error e => (out.state, out.events, [uid], some e)
    | .ok _ =>
      let (st2, evs, atts, r) := retry_group_loop oracles out.state rest
      (st2, out.events ++ evs, uid :: atts, r)

/-- The container reconcile retry loop of `retry_all_once`
(src/crates/nri-resctrl-plugin/src/lib.rs:521-528): ContainerNotFound and
PodNotFound continue, any other error returns it, success continues. -/
def retry_container_loop (oracles : RetryOracles) :
    InnerState → List String →
    InnerState × List PodResctrlEvent × List String × Option PluginError
  | st, [] => (st, [], [], none)
  | st, cid :: rest =>
    let out := retry_container_reconcile st cid (oracles.reconcileRes cid)
    match out.result with
    | .error .ContainerNotFound =>
      let (st2, evs, atts, r) := retry_container_loop oracles out.state rest
      (st2, out.events ++ evs, cid :: atts, r)
    | .error .PodNotFound =>
      let (st2, evs, atts, r) := retry_container_loop oracles out.state rest
      (st2, out.events ++ evs, cid :: atts, r)
    | .error e => (out.state, out.events, [cid], some e)
    | .ok _ =>
      let (st2, evs, atts, r) := retry_container_loop oracles out.state rest
      (st2, out.events ++ evs, cid :: atts, r)

/-- Result of one `retry_all_once` pass. -/
structure PassOut where
  result : Except PluginError Unit
  state : InnerState
  events : List PodResctrlEvent
  groupAttempts : List String
  containerAttempts : List String

/-- `ResctrlPlugin::retry_all_once`
(src/crates/nri-resctrl-plugin/src/lib.rs:482-530). -/
def retry_all_once (st : InnerState) (oracles : RetryOracles) : PassOut :=
  let fp := failedSnapshot st
  let pc := partialSnapshot st
  let (st1, evs1, gAtt, r1) := retry_group_loop oracles st fp
  match r1 with
  | some e => ⟨.error e, st1, evs1, gAtt, []⟩
  | none =>
    let (st2, evs2, cAtt, r2) := retry_container_loop oracles st1 pc
    match r2 with
    | some e => ⟨.error e, st2, evs1 ++ evs2, gAtt, cAtt⟩
    | none => ⟨.ok (), st2, evs1 ++ evs2, gAtt, cAtt⟩

end Plugin

namespace Plugin

/-- One externally triggered plugin operation, carrying the outcomes of the
resctrl filesystem calls it performs (the plugin only branches on these
outcomes). Each operation is atomic in this model: the NRI runtime delivers
the lifecycle stream in order and retries run between deliveries. -/
inductive Op where
  | newPod (uid : String) (createRes : Except RError String)
  | newContainer (uid cid containerCgroupsPath podParent : String)
      (reconcileRes : Except RError Nat)
  | removeContainer (uid cid : String)
  | removePod (uid : String)
  | retryGroup (uid : String) (createRes : Except RError String)
  | retryContainer (cid : String) (reconcileRes : Except RError Nat)
  | retryAll (oracles : RetryOracles)

/-- State transition and emitted events of one operation. -/
def applyOp (st : InnerState) : Op → InnerState × List PodResctrlEvent
  | .newPod uid r => let o := handle_new_pod st uid r; (o.state, o.events)
  | .newContainer uid cid cp pp r =>
    let o := handle_new_container st uid cid cp pp r; (o.state, o.events)
  | .removeContainer uid cid => let o := remove_container st uid cid; (o.state, o.events)
  | .removePod uid => let o := remove_pod_sandbox st uid; (o.state, o.events)
  | .retryGroup uid r => let o := retry_group_creation st uid r; (o.state, o.events)
  | .retryContainer cid r => let o := retry_container_reconcile st cid r; (o.state, o.events)
  | .retryAll oracles => let o := retry_all_once st oracles; (o.state, o.events)

def Op.fromRemoveContainer : Op → Bool
  | .removeContainer _ _ => true
  | _ => false

/-- An emitted event tagged with whether it came from a REMOVE_CONTAINER
state change. -/
abbrev TEvent := Bool × PodResctrlEvent

/-- Run a sequence of operations, collecting the tagged event trace. -/
def runTrace : InnerState → List Op → InnerState × List TEvent
  | st, [] => (st, [])
  | st, op :: rest =>
    let p := applyOp st op
    let q := runTrace p.1 rest
    (q.1, p.2.map (fun e => (op.fromRemoveContainer, e)) ++ q.2)

def emptyState : InnerState := ⟨[], []⟩

def runState (ops : List Op) : InnerState := (runTrace emptyState ops).1

def runEvents (ops : List Op) : List TEvent := (runTrace emptyState ops).2

/-- The pod uid an event refers to. -/
def evUid : PodResctrlEvent → String
  | .AddOrUpdate uid _ _ _ => uid
  | .Removed uid => uid

/-- Lexicographic comparison of `(total_containers, reconciled_containers)`. -/
def pairLe (p q : Nat × Nat) : Bool :=
  p.1 < q.1 || (p.1 = q.1 && p.2 ≤ q.2)

/-- Events of the trace that refer to pod `uid`, in emission order. -/
def projectUid (uid : String) (l : List TEvent) : List TEvent :=
  l.filter fun te => evUid te.2 == uid

/-- Adjacency condition of claim C2 on a per-pod event sequence:
consecutive AddOrUpdate pairs are non-decreasing lexicographically, and no
event may follow a Removed except an AddOrUpdate starting a new lifecycle. -/
def adjOkClaim : PodResctrlEvent → PodResctrlEvent → Bool
  | .AddOrUpdate _ _ t r, .AddOrUpdate _ _ t' r' => pairLe (t, r) (t', r')
  | .AddOrUpdate _ _ _ _, .Removed _ => true
  | .Removed _, .AddOrUpdate _ _ _ _ => true
  | .Removed _, .Removed _ => false

def chainOkClaim : Option PodResctrlEvent → List PodResctrlEvent → Bool
  | _, [] => true
  | none, e :: rest => chainOkClaim (some e) rest
  | some p, e :: rest => adjOkClaim p e && chainOkClaim (some e) rest

/-- Claim C2's property of one pod's projected event sequence. -/
def claimC2Holds (l : List PodResctrlEvent) : Bool := chainOkClaim none l

/-- Amended adjacency: an AddOrUpdate emitted by a REMOVE_CONTAINER state
change is exempt from the monotonicity requirement, and a redundant Removed
(REMOVE_POD_SANDBOX for an already absent pod) is allowed. -/
def adjOkAmended : TEvent → TEvent → Bool
  | (_, .AddOrUpdate _ _ t r), (flag, .AddOrUpdate _ _ t' r') =>
    flag || pairLe (t, r) (t', r')
  | _, _ => true

def chainOkAmended : Option TEvent → List TEvent → Bool
  | _, [] => true
  | none, e :: rest => chainOkAmended (some e) rest
  | some p, e :: rest => adjOkAmended p e && chainOkAmended (some e) rest

/-- Amended claim C2's property of one pod's projected tagged sequence. -/
def amendedC2Holds (l : List TEvent) : Bool := chainOkAmended none l

/-- Claim C1's per-pod invariant as a Boolean state predicate:
`reconciled_containers ≤ total_containers`, and Failed implies
`reconciled_containers == 0`. -/
def podsInvB (st : InnerState) : Bool :=
  st.pods.all fun kv =>
    decide (kv.2.reconciled_containers ≤ kv.2.total_containers) &&
    (!(kv.2.group_state == ResctrlGroupState.Failed) || kv.2.reconciled_containers == 0)

end Plugin

namespace Collector

/-- `TaskMetadata` held by the task table (fields from spec section 3 and
the construction site in src/crates/collector/src/main.rs:171; the defining
source file task_metadata.rs is not in the snapshot). -/
structure TaskMetadata where
  pid : Nat
  comm : String
  cgroup_id : Nat
  deriving DecidableEq, Repr

/-- Modelled from the spec: `TaskCollection` (section 4.2) — a pid-to-metadata
mapping plus a pending-removal set; the defining source file
(task_metadata.rs) is not in the snapshot.  `add` is an idempotent upsert,
`queue_removal` leaves the entry visible, `flush_removals` removes every
pending pid and clears the pending set. -/
structure TaskCollection where
  tasks : List (Nat × TaskMetadata)
  pending : List Nat
  deriving DecidableEq, Repr

def TaskCollection.new : TaskCollection := ⟨[], []⟩

def TaskCollection.add (tc : TaskCollection) (m : TaskMetadata) : TaskCollection :=
  { tc with tasks := aupdate tc.tasks m.pid m }

def TaskCollection.lookup (tc : TaskCollection) (pid : Nat) : Option TaskMetadata :=
  alookup tc.tasks pid

def TaskCollection.queue_removal (tc : TaskCollection) (pid : Nat) : TaskCollection :=
  { tc with pending := tc.pending ++ [pid] }

def TaskCollection.flush_removals (tc : TaskCollection) : TaskCollection :=
  ⟨tc.pending.foldl (fun ts p => aremove ts p) tc.tasks, []⟩

/-- Perf counter deltas of one measurement (spec section 3; metrics.rs is
not in the snapshot). -/
structure Metric where
  cycles : Nat
  instructions : Nat
  llc_misses : Nat
  cache_references : Nat
  time_ns : Nat
  deriving DecidableEq, Repr

def Metric.addTo (a b : Metric) : Metric :=
  ⟨a.cycles + b.cycles, a.instructions + b.instructions,
   a.llc_misses + b.llc_misses, a.cache_references + b.cache_references,
   a.time_ns + b.time_ns⟩

/-- One per-pid entry of a timeslot aggregate. -/
structure TimeslotEntry where
  metadata : Option TaskMetadata
  metric : Metric
  deriving DecidableEq, Repr

/-- Modelled from the spec: `TimeslotData` (sections 3 and 4.3) — the
per-timeslot aggregate keyed by its start timestamp; the defining source
file (timeslot_data.rs) is not in the snapshot.  `update` folds a
measurement into the per-pid entry by summing deltas; the metadata is set
on first insertion and last-writer-wins afterwards. -/
structure TimeslotData where
  timestamp : Nat
  entries : List (Nat × TimeslotEntry)
  deriving DecidableEq, Repr

def TimeslotData.new (ts : Nat) : TimeslotData := ⟨ts, []⟩

def TimeslotData.update (td : TimeslotData) (pid : Nat)
    (meta : Option TaskMetadata) (m : Metric) : TimeslotData :=
  match alookup td.entries pid with
  | none => { td with entries := aupdate td.entries pid ⟨meta, m⟩ }
  | some e => { td with entries := aupdate td.entries pid ⟨meta, e.metric.addTo m⟩ }

/-- The bounded timeslot channel between the aggregator and the writer task
(capacity 1000 in main.rs); `try_send` appends when there is room and
otherwise drops the timeslot. -/
structure TimeslotChannel where
  capacity : Nat
  queue : List TimeslotData
  deriving DecidableEq, Repr

def TimeslotChannel.trySend (ch : TimeslotChannel) (t : TimeslotData) :
    TimeslotChannel × Bool :=
  if ch.queue.length < ch.capacity then ({ ch with queue := ch.queue ++ [t] }, true)
  else (ch, false)

/-- `PerfEventProcessor` state (src/crates/collector/src/main.rs:76-85),
with the writer channel made explicit (the `on_timeslot_complete` callback
installed in main.rs:322-344 performs `try_send` on it). -/
structure ProcessorState where
  task_collection : TaskCollection
  current_timeslot : TimeslotData
  chan : TimeslotChannel
  deriving DecidableEq, Repr

/-- Parsed ring-buffer events dispatched to the processor (record parsing
itself is counted-and-skipped on failure and is not modelled). -/
inductive BpfEvent where
  | taskMetadata (pid : Nat) (comm : String) (cgroup_id : Nat)
  | taskFree (pid : Nat)
  | perfMeasurement (pid : Nat) (m : Metric)
  | timeslot (oldTs newTs : Nat)

/-- `PerfEventProcessor::handle_task_metadata` (main.rs:161-173). -/
def handle_task_metadata (s : ProcessorState) (pid : Nat) (comm : String)
    (cg : Nat) : ProcessorState :=
  { s with task_collection := s.task_collection.add ⟨pid, comm, cg⟩ }

/-- `PerfEventProcessor::handle_task_free` (main.rs:176-187). -/
def handle_task_free (s : ProcessorState) (pid : Nat) : ProcessorState :=
  { s with task_collection := s.task_collection.queue_removal pid }

/-- `PerfEventProcessor::handle_perf_measurement` (main.rs:190-212). -/
def handle_perf_measurement (s : ProcessorState) (pid : Nat) (m : Metric) :
    ProcessorState :=
  let metadata := s.task_collection.lookup pid
  { s with current_timeslot := s.current_timeslot.update pid metadata m }

/-- `PerfEventProcessor::handle_new_timeslot` (main.rs:215-224): replace the
current timeslot with a fresh empty one keyed by the new timestamp and hand
the completed one to the writer callback, which try_sends it. -/
def handle_new_timeslot (s : ProcessorState) (newTs : Nat) : ProcessorState :=
  let completed := s.current_timeslot
  { s with current_timeslot := TimeslotData.new newTs,
           chan := (s.chan.trySend completed).1 }

/-- `PerfEventProcessor::handle_task_collection_flush` (main.rs:227-230). -/
def handle_task_collection_flush (s : ProcessorState) : ProcessorState :=
  { s with task_collection := s.task_collection.flush_removals }

/-- Event dispatch.  For the TIMESLOT boundary the two subscriptions
registered in `PerfEventProcessor::new` (main.rs:108-127) run in
registration order — modelled from the spec (section 4.1: multiple handlers
per type are invoked in registration order; the tracker source is not in
the snapshot): first `handle_new_timeslot`, then
`handle_task_collection_flush`. -/
def processEvent (s : ProcessorState) : BpfEvent → ProcessorState
  | .taskMetadata pid comm cg => handle_task_metadata s pid comm cg
  | .taskFree pid => handle_task_free s pid
  | .perfMeasurement pid m => handle_perf_measurement s pid m
  | .timeslot _oldTs newTs =>
    handle_task_collection_flush (handle_new_timeslot s newTs)

end Collector

section AListLemmas

variable {κ α : Type} [DecidableEq κ]

theorem alookup_aupdate_self (l : List (κ × α)) (k : κ) (v : α) :
    alookup (aupdate l k v) k = some v := by
  induction l with
  | nil => simp [aupdate, alookup]
  | cons kv rest ih =>
    obtain ⟨k', w⟩ := kv
    by_cases h : k' = k
    · subst h; simp [aupdate, alookup]
    · simp [aupdate, alookup, h, ih]

theorem alookup_aupdate_ne (l : List (κ × α)) (k k' : κ) (v : α) (h : k' ≠ k) :
    alookup (aupdate l k v) k' = alookup l k' := by
  induction l with
  | nil => simp [aupdate, alookup, Ne.symm h]
  | cons kv rest ih =>
    obtain ⟨k'', w⟩ := kv
    by_cases hk : k'' = k
    · subst hk
      simp [aupdate, alookup, Ne.symm h]
    · simp [aupdate, alookup, hk, ih]

theorem alookup_aremove_ne (l : List (κ × α)) (k k' : κ) (h : k' ≠ k) :
    alookup (aremove l k) k' = alookup l k' := by
  induction l with
  | nil => simp [aremove]
  | cons kv rest ih =>
    obtain ⟨k'', w⟩ := kv
    by_cases hk : k'' = k
    · subst hk; simp [aremove, alookup, Ne.symm h]
    · simp [aremove, alookup, hk, ih]

theorem mem_keys_of_alookup {l : List (κ × α)} {k : κ} {v : α}
    (h : alookup l k = some v) : k ∈ l.map Prod.fst := by
  induction l with
  | nil => simp [alookup] at h
  | cons kv rest ih =>
    obtain ⟨k', w⟩ := kv
    by_cases hk : k' = k
    · subst hk; simp
    · simp [alookup, hk] at h
      simp [ih h]

theorem alookup_aremove_self {l : List (κ × α)} {k : κ}
    (h : (l.map Prod.fst).Nodup) : alookup (aremove l k) k = none := by
  induction l with
  | nil => simp [aremove, alookup]
  | cons kv rest ih =>
    obtain ⟨k', w⟩ := kv
    simp only [List.map_cons, List.nodup_cons] at h
    by_cases hk : k' = k
    · subst hk
      simp only [aremove, if_pos rfl]
      cases hr : alookup rest k' with
      | none => exact hr
      | some v => exact absurd (mem_keys_of_alookup hr) h.1
    · simp [aremove, alookup, hk, ih h.2]

theorem mem_of_alookup {l : List (κ × α)} {k : κ} {v : α}
    (h : alookup l k = some v) : (k, v) ∈ l := by
  induction l with
  | nil => simp [alookup] at h
  | cons kv rest ih =>
    obtain ⟨k', w⟩ := kv
    by_cases hk : k' = k
    · subst hk
      simp [alookup] at h
      simp [h]
    · simp only [alookup, if_neg hk] at h
      simp [ih h]

theorem alookup_of_mem {l : List (κ × α)} {k : κ} {v : α}
    (hN : (l.map Prod.fst).Nodup) (h : (k, v) ∈ l) : alookup l k = some v := by
  induction l with
  | nil => simp at h
  | cons kv rest ih =>
    obtain ⟨k', w⟩ := kv
    simp only [List.map_cons, List.nodup_cons] at hN
    rcases List.mem_cons.mp h with h | h
    · cases h; simp [alookup]
    · have hk : k' ≠ k := by
        intro he; subst he
        exact hN.1 (by simpa using List.mem_map_of_mem Prod.fst h)
      simp [alookup, hk, ih hN.2 h]

theorem aupdate_keys (l : List (κ × α)) (k : κ) (v : α) :
    (aupdate l k v).map Prod.fst =
      if k ∈ l.map Prod.fst then l.map Prod.fst else l.map Prod.fst ++ [k] := by
  induction l with
  | nil => simp [aupdate]
  | cons kv rest ih =>
    obtain ⟨k', w⟩ := kv
    by_cases hk : k' = k
    · subst hk; simp [aupdate]
    · have hk' : ¬ k = k' := fun he => hk he.symm
      simp only [aupdate, if_neg hk, List.map_cons, ih, List.mem_cons]
      by_cases hm : k ∈ rest.map Prod.fst
      · simp [hm, hk']
      · simp [hm, hk']

theorem aupdate_keys_nodup {l : List (κ × α)} (k : κ) (v : α)
    (h : (l.map Prod.fst).Nodup) : ((aupdate l k v).map Prod.fst).Nodup := by
  rw [aupdate_keys]
  by_cases hm : k ∈ l.map Prod.fst
  · simpa [hm] using h
  · simp only [hm, if_neg]
    simp [List.nodup_append, h, hm]

theorem mem_keys_aremove {l : List (κ × α)} {k k2 : κ}
    (h : k2 ∈ (aremove l k).map Prod.fst) : k2 ∈ l.map Prod.fst := by
  induction l with
  | nil => simpa [aremove] using h
  | cons kv rest ih =>
    obtain ⟨k', w⟩ := kv
    by_cases hk : k' = k
    · subst hk
      simp [aremove] at h
      simp [h]
    · simp only [aremove, if_neg hk, List.map_cons, List.mem_cons] at h
      rcases h with h | h
      · simp [h]
      · simp [ih h]

theorem aremove_keys_nodup {l : List (κ × α)} (k : κ)
    (h : (l.map Prod.fst).Nodup) : ((aremove l k).map Prod.fst).Nodup := by
  induction l with
  | nil => simpa [aremove] using h
  | cons kv rest ih =>
    obtain ⟨k', w⟩ := kv
    simp only [List.map_cons, List.nodup_cons] at h
    by_cases hk : k' = k
    · subst hk; simpa [aremove] using h.2
    · simp only [aremove, if_neg hk, List.map_cons, List.nodup_cons]
      exact ⟨fun hm => h.1 (mem_keys_aremove hm), ih h.2⟩

theorem mem_keys_filter {l : List (κ × α)} {p : κ × α → Bool} {k2 : κ}
    (h : k2 ∈ (l.filter p).map Prod.fst) : k2 ∈ l.map Prod.fst := by
  rcases List.mem_map.mp h with ⟨kv, hm, he⟩
  exact he ▸ List.mem_map_of_mem Prod.fst (List.mem_of_mem_filter hm)

theorem filter_keys_nodup {l : List (κ × α)} (p : κ × α → Bool)
    (h : (l.map Prod.fst).Nodup) : ((l.filter p).map Prod.fst).Nodup := by
  induction l with
  | nil => simp
  | cons kv rest ih =>
    simp only [List.map_cons, List.nodup_cons] at h
    by_cases hp : p kv
    · simp only [List.filter_cons, hp, if_pos, List.map_cons, List.nodup_cons]
      exact ⟨fun hm => h.1 (mem_keys_filter hm), ih h.2⟩
    · simp only [List.filter_cons, hp]
      simpa using ih h.2

theorem aremove_of_alookup_none {l : List (κ × α)} {k : κ}
    (h : alookup l k = none) : aremove l k = l := by
  induction l with
  | nil => simp [aremove]
  | cons kv rest ih =>
    obtain ⟨k', w⟩ := kv
    by_cases hk : k' = k
    · subst hk; simp [alookup] at h
    · simp only [alookup, if_neg hk] at h
      simp [aremove, hk, ih h]

theorem aupdate_append_of_none {l : List (κ × α)} {k : κ} (v : α)
    (h : alookup l k = none) : aupdate l k v = l ++ [(k, v)] := by
  induction l with
  | nil => simp [aupdate]
  | cons kv rest ih =>
    obtain ⟨k', w⟩ := kv
    by_cases hk : k' = k
    · subst hk; simp [alookup] at h
    · simp only [alookup, if_neg hk] at h
      simp [aupdate, hk, ih h]

theorem alookup_filter_some {l : List (κ × α)} {p : κ × α → Bool} {k : κ} {v : α}
    (hN : (l.map Prod.fst).Nodup) (h : alookup (l.filter p) k = some v) :
    alookup l k = some v ∧ p (k, v) = true := by
  have hmem := mem_of_alookup h
  have hm := List.mem_of_mem_filter hmem
  have hp := List.of_mem_filter hmem
  exact ⟨alookup_of_mem hN hm, hp⟩

/-- Count the entries of an association list whose value satisfies `p`. -/
def countP (p : α → Bool) (l : List (κ × α)) : Nat :=
  (l.filter fun kv => p kv.2).length

theorem countP_nil (p : α → Bool) : countP (κ := κ) p [] = 0 := rfl

theorem countP_cons (p : α → Bool) (kv : κ × α) (l : List (κ × α)) :
    countP p (kv :: l) = countP p l + (if p kv.2 then 1 else 0) := by
  by_cases hp : p kv.2 <;> simp [countP, List.filter_cons, hp, Nat.add_comm]

theorem countP_append (p : α → Bool) (l m : List (κ × α)) :
    countP p (l ++ m) = countP p l + countP p m := by
  simp [countP, List.filter_append]

theorem countP_aupdate_none {l : List (κ × α)} {k : κ} (p : α → Bool) (v : α)
    (h : alookup l k = none) :
    countP p (aupdate l k v) = countP p l + (if p v then 1 else 0) := by
  rw [aupdate_append_of_none v h, countP_append]
  by_cases hp : p v <;> simp [countP, List.filter_cons, hp]

theorem countP_aupdate_some {l : List (κ × α)} {k : κ} {w : α} (p : α → Bool) (v : α)
    (hN : (l.map Prod.fst).Nodup) (h : alookup l k = some w) :
    countP p (aupdate l k v) + (if p w then 1 else 0) =
      countP p l + (if p v then 1 else 0) := by
  induction l with
  | nil => simp [alookup] at h
  | cons kv rest ih =>
    obtain ⟨k', w'⟩ := kv
    simp only [List.map_cons, List.nodup_cons] at hN
    by_cases hk : k' = k
    · subst hk
      simp [alookup] at h
      subst h
      simp [aupdate, countP_cons]
      omega
    · simp only [alookup, if_neg hk] at h
      simp only [aupdate, if_neg hk, countP_cons]
      have := ih hN.2 h
      omega

theorem countP_aremove_some {l : List (κ × α)} {k : κ} {w : α} (p : α → Bool)
    (hN : (l.map Prod.fst).Nodup) (h : alookup l k = some w) :
    countP p (aremove l k) + (if p w then 1 else 0) = countP p l := by
  induction l with
  | nil => simp [alookup] at h
  | cons kv rest ih =>
    obtain ⟨k', w'⟩ := kv
    simp only [List.map_cons, List.nodup_cons] at hN
    by_cases hk : k' = k
    · subst hk
      simp [alookup] at h
      subst h
      simp [aremove, countP_cons]
    · simp only [alookup, if_neg hk] at h
      simp only [aremove, if_neg hk, countP_cons]
      have := ih hN.2 h
      omega

theorem countP_mono {p q : α → Bool} (l : List (κ × α))
    (himp : ∀ a, q a = true → p a = true) : countP q l ≤ countP p l := by
  induction l with
  | nil => simp [countP]
  | cons kv rest ih =>
    simp only [countP_cons]
    by_cases hq : q kv.2
    · simp [hq, himp kv.2 hq]; omega
    · simp only [hq, if_neg, Bool.false_eq_true, if_false]
      by_cases hp : p kv.2 <;> simp [hp] <;> omega

theorem countP_eq_zero_iff (p : α → Bool) (l : List (κ × α)) :
    countP p l = 0 ↔ ∀ kv ∈ l, p kv.2 = false := by
  constructor
  · intro h kv hm
    by_cases hp : p kv.2
    · exfalso
      have : kv ∈ l.filter fun kv => p kv.2 := List.mem_filter.mpr ⟨hm, hp⟩
      have := List.length_pos.mpr (List.ne_nil_of_mem this)
      simp only [countP] at h
      omega
    · simpa using hp
  · intro h
    simp only [countP, List.length_eq_zero, List.filter_eq_nil]
    intro kv hm
    simp [h kv hm]

theorem countP_filter_of_imp {p r : α → Bool} (l : List (κ × α))
    (himp : ∀ a, p a = true → r a = true) :
    countP p (l.filter fun kv => r kv.2) = countP p l := by
  induction l with
  | nil => simp [countP]
  | cons kv rest ih =>
    by_cases hr : r kv.2
    · simp only [List.filter_cons, hr, if_pos, countP_cons, ih]
    · have hp : p kv.2 = false := by
        by_cases hp : p kv.2
        · exact absurd (himp kv.2 hp) (by simpa using hr)
        · simpa using hp
      simp [List.filter_cons, hr, countP_cons, ih, hp]

end AListLemmas

/-- C6: for every container whose `cgroups_path` has at least three
colon-separated parts and every pod with a non-empty `cgroup_parent`,
`compute_full_cgroup_path` returns `<parent>/<runtime>-<container_id>.scope`
when the prefix-normalized parent contains ".slice" and
`<parent>/<container_id>` otherwise, where the prefix /sys/fs/cgroup is
prepended to the parent iff it is not already rooted there (the spec-side
construction `specPreferredPath`). -/
theorem claim_C6_preferred_path (containerPath parentPath : String)
    (h1 : 3 ≤ (CgroupPath.strSplit containerPath ':').length) (h2 : parentPath ≠ "") :
    CgroupPath.compute_full_cgroup_path containerPath parentPath =
      CgroupPath.specPreferredPath containerPath parentPath := by
  have hne : ¬ (containerPath = "" ∧ parentPath = "") := fun h => h2 h.2
  unfold CgroupPath.compute_full_cgroup_path CgroupPath.specPreferredPath
  rw [if_neg hne, if_pos ⟨h1, h2⟩]

theorem claim_C6_preferred_path_witness :
    (3 ≤ (CgroupPath.strSplit "kb.slice:cri-containerd:abc" ':').length ∧
      ("/kubelet.slice/kb.slice" : String) ≠ "" ∧
      CgroupPath.compute_full_cgroup_path "kb.slice:cri-containerd:abc"
          "/kubelet.slice/kb.slice" =
        CgroupPath.specPreferredPath "kb.slice:cri-containerd:abc"
          "/kubelet.slice/kb.slice") ∧
    (3 ≤ (CgroupPath.strSplit "x:cri:ctr7" ':').length ∧ ("/kubepods/pod9" : String) ≠ "" ∧
      CgroupPath.compute_full_cgroup_path "x:cri:ctr7" "/kubepods/pod9" =
        CgroupPath.specPreferredPath "x:cri:ctr7" "/kubepods/pod9") ∧
    CgroupPath.compute_full_cgroup_path "kb.slice:cri-containerd:abc"
        "/kubelet.slice/kb.slice" =
      "/sys/fs/cgroup/kubelet.slice/kb.slice/cri-containerd-abc.scope" ∧
    CgroupPath.compute_full_cgroup_path "x:cri:ctr7" "/kubepods/pod9" =
      "/sys/fs/cgroup/kubepods/pod9/ctr7" :=
  ⟨⟨by decide, by decide,
      claim_C6_preferred_path "kb.slice:cri-containerd:abc" "/kubelet.slice/kb.slice"
        (by decide) (by decide)⟩,
    ⟨by decide, by decide,
      claim_C6_preferred_path "x:cri:ctr7" "/kubepods/pod9" (by decide) (by decide)⟩,
    by decide, by decide⟩

/-- C8 counterexample: when both the container `cgroups_path` and the pod
`cgroup_parent` are empty, the function returns the empty string rather
than the prefix-normalized container path "/sys/fs/cgroup/" that the claim
("in particular this holds for every input where both fields are empty")
requires. -/
theorem claim_C8_counterexample :
    CgroupPath.compute_full_cgroup_path "" "" = "" ∧
    CgroupPath.ensureCgroupRoot "" = "/sys/fs/cgroup/" ∧
    CgroupPath.compute_full_cgroup_path "" "" ≠ CgroupPath.ensureCgroupRoot "" := by
  refine ⟨by decide, by decide, by decide⟩

/-- C8 (amended): whenever the container's `cgroups_path` lacks three
colon-separated parts or the pod's `cgroup_parent` is empty,
`compute_full_cgroup_path` returns the container path with /sys/fs/cgroup
prepended when not already present — except for the degenerate input where
both fields are empty, which returns the empty string. -/
theorem claim_C8_fallback (containerPath parentPath : String)
    (h : (CgroupPath.strSplit containerPath ':').length < 3 ∨ parentPath = "")
    (hne : ¬ (containerPath = "" ∧ parentPath = "")) :
    CgroupPath.compute_full_cgroup_path containerPath parentPath =
      CgroupPath.ensureCgroupRoot containerPath := by
  unfold CgroupPath.compute_full_cgroup_path
  rw [if_neg hne, if_neg]
  rintro ⟨ha, hb⟩
  rcases h with h | h
  · omega
  · exact hb h

theorem claim_C8_fallback_witness :
    ((CgroupPath.strSplit "/cg/pod9" ':').length < 3 ∨ ("" : String) = "") ∧
    ¬ (("/cg/pod9" : String) = "" ∧ ("" : String) = "") ∧
    CgroupPath.compute_full_cgroup_path "/cg/pod9" "" =
      CgroupPath.ensureCgroupRoot "/cg/pod9" ∧
    CgroupPath.compute_full_cgroup_path "/cg/pod9" "" = "/sys/fs/cgroup/cg/pod9" :=
  ⟨by decide, by decide,
    claim_C8_fallback "/cg/pod9" "" (by decide) (by decide), by decide⟩

/-- C7: `pids_for_path` returns an InvalidInput Io error on the empty path;
Io(ENOENT) on a missing directory; an Io error carrying the underlying read
error on an existing but unreadable procs file (trying cgroup.procs then
cgroups.procs); and otherwise exactly the pids parsed from the lines of the
procs file whose trimmed content parses as a decimal integer, with
malformed lines silently dropped (illustrated by the closed evaluation in
the last conjunct). -/
theorem claim_C7_pids_for_path (fs : PidSource.Fs) (p : String) :
    (PidSource.pids_for_path fs "" =
      .error (.Io "<cgroup path>" .invalidInput)) ∧
    (p ≠ "" → fs.pathExists p = false →
      PidSource.pids_for_path fs p = .error (.Io p .enoent)) ∧
    (∀ e, p ≠ "" → fs.pathExists p = true →
      fs.pathExists (PidSource.joinPath p "cgroup.procs") = true →
      fs.readFile (PidSource.joinPath p "cgroup.procs") = .error e →
      PidSource.pids_for_path fs p =
        .error (.Io (PidSource.joinPath p "cgroup.procs") e)) ∧
    (∀ e, p ≠ "" → fs.pathExists p = true →
      fs.pathExists (PidSource.joinPath p "cgroup.procs") = false →
      fs.pathExists (PidSource.joinPath p "cgroups.procs") = true →
      fs.readFile (PidSource.joinPath p "cgroups.procs") = .error e →
      PidSource.pids_for_path fs p =
        .error (.Io (PidSource.joinPath p "cgroup.procs") e)) ∧
    (∀ content, p ≠ "" → fs.pathExists p = true →
      fs.pathExists (PidSource.joinPath p "cgroup.procs") = true →
      fs.readFile (PidSource.joinPath p "cgroup.procs") = .ok content →
      PidSource.pids_for_path fs p = .ok (PidSource.parsePids content)) ∧
    (∀ content, p ≠ "" → fs.pathExists p = true →
      fs.pathExists (PidSource.joinPath p "cgroup.procs") = false →
      fs.pathExists (PidSource.joinPath p "cgroups.procs") = true →
      fs.readFile (PidSource.joinPath p "cgroups.procs") = .ok content →
      PidSource.pids_for_path fs p = .ok (PidSource.parsePids content)) ∧
    PidSource.parsePids " 12 \nnot-a-pid\n-3\n\n7x\n+9\n" = [12, -3, 9] := by
  refine ⟨by simp [PidSource.pids_for_path], ?_, ?_, ?_, ?_, ?_, by decide⟩
  · intro hp hex
    simp [PidSource.pids_for_path, hp, hex]
  · intro e hp hex h1 hr
    simp [PidSource.pids_for_path, PidSource.tryCandidates, hp, hex, h1, hr]
  · intro e hp hex h1 h2 hr
    simp [PidSource.pids_for_path, PidSource.tryCandidates, hp, hex, h1, h2, hr]
  · intro content hp hex h1 hr
    simp [PidSource.pids_for_path, PidSource.tryCandidates, hp, hex, h1, hr]
  · intro content hp hex h1 h2 hr
    simp [PidSource.pids_for_path, PidSource.tryCandidates, hp, hex, h1, h2, hr]

/-- Concrete filesystem oracle for the C7 witness: directory `/cg` exists
with a readable `cgroup.procs`, directory `/gone` does not exist. -/
def c7Fs : PidSource.Fs where
  pathExists := fun s => s == "/cg" || s == "/cg/cgroup.procs"
  readFile := fun s => if s == "/cg/cgroup.procs" then .ok "41\n42\n" else .error .enoent

theorem claim_C7_pids_for_path_witness :
    (("/gone" : String) ≠ "" ∧ c7Fs.pathExists "/gone" = false ∧
      PidSource.pids_for_path c7Fs "/gone" = .error (.Io "/gone" .enoent)) ∧
    (("/cg" : String) ≠ "" ∧ c7Fs.pathExists "/cg" = true ∧
      c7Fs.pathExists (PidSource.joinPath "/cg" "cgroup.procs") = true ∧
      c7Fs.readFile (PidSource.joinPath "/cg" "cgroup.procs") = .ok "41\n42\n" ∧
      PidSource.pids_for_path c7Fs "/cg" = .ok (PidSource.parsePids "41\n42\n") ∧
      PidSource.parsePids "41\n42\n" = [41, 42]) :=
  ⟨⟨by decide, by decide,
      (claim_C7_pids_for_path c7Fs "/gone").2.1 (by decide) (by decide)⟩,
    ⟨by decide, by decide, by decide, by rfl,
      (claim_C7_pids_for_path c7Fs "/cg").2.2.2.2.1 "41\n42\n" (by decide) (by decide)
        (by decide) (by rfl), by decide⟩⟩

deriving instance DecidableEq for Except

/-- C9: calling `handle_new_container` with a container id already present
in the containers map logs an error and returns, leaving the pods map, the
containers map and both per-pod counters unchanged, emitting no event and
performing no filesystem call. -/
theorem claim_C9_duplicate_container (st : Plugin.InnerState)
    (uid cid cp pp : String) (r : Except Plugin.RError Nat)
    (h : (alookup st.containers cid).isSome = true) :
    Plugin.handle_new_container st uid cid cp pp r = ⟨(), st, [], []⟩ := by
  unfold Plugin.handle_new_container
  rw [if_pos h]

/-- Concrete state for the C9 witness. -/
def c9State : Plugin.InnerState :=
  ⟨[("u", ⟨.Exists "g", 1, 1⟩)], [("c", ⟨"u", "/cg/c", .Reconciled⟩)]⟩

theorem claim_C9_duplicate_container_witness :
    (alookup c9State.containers "c").isSome = true ∧
    Plugin.handle_new_container c9State "u" "c" "a:b:c" "/p" (.ok 0) =
      ⟨(), c9State, [], []⟩ :=
  ⟨by decide, claim_C9_duplicate_container c9State "u" "c" "a:b:c" "/p" (.ok 0) (by decide)⟩

/-- C10: `retry_group_creation` on a pod whose group already Exists returns
Ok(Exists path) without filesystem calls, events or state changes; on an
absent pod it returns PodNotFound, likewise with no side effects. -/
theorem claim_C10_retry_group_noop (st : Plugin.InnerState) (uid : String)
    (r : Except Plugin.RError String) :
    (∀ ps path, alookup st.pods uid = some ps →
      ps.group_state = .Exists path →
      Plugin.retry_group_creation st uid r = ⟨.ok (.Exists path), st, [], []⟩) ∧
    (alookup st.pods uid = none →
      Plugin.retry_group_creation st uid r = ⟨.error .PodNotFound, st, [], []⟩) := by
  constructor
  · intro ps path hl hg
    simp only [Plugin.retry_group_creation, hl, hg]
  · intro hl
    simp only [Plugin.retry_group_creation, hl]

/-- Concrete state for the C10 witness. -/
def c10State : Plugin.InnerState :=
  ⟨[("u", ⟨.Exists "/sys/fs/resctrl/pod_u", 2, 1⟩)], []⟩

theorem claim_C10_retry_group_noop_witness :
    (alookup c10State.pods "u" = some ⟨.Exists "/sys/fs/resctrl/pod_u", 2, 1⟩ ∧
      Plugin.retry_group_creation c10State "u" (.error .Capacity) =
        ⟨.ok (.Exists "/sys/fs/resctrl/pod_u"), c10State, [], []⟩) ∧
    (alookup c10State.pods "v" = none ∧
      Plugin.retry_group_creation c10State "v" (.ok "ignored") =
        ⟨.error .PodNotFound, c10State, [], []⟩) :=
  ⟨⟨by decide,
      (claim_C10_retry_group_noop c10State "u" (.error .Capacity)).1
        ⟨.Exists "/sys/fs/resctrl/pod_u", 2, 1⟩ "/sys/fs/resctrl/pod_u"
        (by decide) (by decide)⟩,
    ⟨by decide,
      (claim_C10_retry_group_noop c10State "v" (.ok "ignored")).2 (by decide)⟩⟩

/-- Concrete state for the C4 counterexample: container "c" is Reconciled
and its pod "u" has an existing group, so the reconcile is still attempted. -/
def c4State : Plugin.InnerState :=
  ⟨[("u", ⟨.Exists "g", 1, 1⟩)], [("c", ⟨"u", "/cg/c", .Reconciled⟩)]⟩

/-- C4 counterexample: on a Reconciled container the code still calls
`reconcile_group`; when that call fails, `retry_container_reconcile`
propagates the error instead of returning Reconciled as the claim states
(no event is emitted and the state is unchanged, but the return value is an
error). -/
theorem claim_C4_counterexample :
    (alookup c4State.containers "c").map (·.state) = some .Reconciled ∧
    (Plugin.retry_container_reconcile c4State "c" (.error (.Other 0))).result =
      .error (.Resctrl (.Other 0)) ∧
    (Plugin.retry_container_reconcile c4State "c" (.error (.Other 0))).result ≠
      .ok .Reconciled := by
  refine ⟨by decide, by decide, by decide⟩

/-- Characterization of `retry_container_reconcile`: either it is a
no-change call (state and events untouched, returning the recorded state on
a successful reconcile of a non-NoPod container with a present pod), or it
is the unique Partial-to-Reconciled committing branch. -/
theorem rcr_char (st : Plugin.InnerState) (cid : String)
    (r : Except Plugin.RError Nat) :
    ((Plugin.retry_container_reconcile st cid r).state = st ∧
      (Plugin.retry_container_reconcile st cid r).events = [] ∧
      (∀ cs m, alookup st.containers cid = some cs → cs.state ≠ .NoPod →
        (alookup st.pods cs.pod_uid).isSome = true → r = .ok m →
        (Plugin.retry_container_reconcile st cid r).result = .ok cs.state)) ∨
    (∃ cs ps gp, alookup st.containers cid = some cs ∧
      cs.state = .Partial ∧
      alookup st.pods cs.pod_uid = some ps ∧
      ps.group_state = .Exists gp ∧ r = .ok 0 ∧
      Plugin.retry_container_reconcile st cid r =
        ⟨.ok .Reconciled,
          ⟨aupdate st.pods cs.pod_uid
              { ps with reconciled_containers := ps.reconciled_containers + 1 },
            aupdate st.containers cid { cs with state := .Reconciled }⟩,
          [Plugin.emitAddOrUpdate cs.pod_uid
              { ps with reconciled_containers := ps.reconciled_containers + 1 }],
          [.reconcileGroup gp]⟩) := by
  cases hc : alookup st.containers cid with
  | none =>
    left
    refine ⟨by simp [Plugin.retry_container_reconcile, hc],
      by simp [Plugin.retry_container_reconcile, hc], ?_⟩
    intro cs m h _ _ _
    exact Option.noConfusion h
  | some cs =>
    by_cases hs : cs.state = Plugin.ContainerSyncState.NoPod
    · left
      refine ⟨by simp [Plugin.retry_container_reconcile, hc, hs],
        by simp [Plugin.retry_container_reconcile, hc, hs], ?_⟩
      intro cs' m h hnp _ _
      cases h
      exact absurd hs hnp
    · cases hp : alookup st.pods cs.pod_uid with
      | none =>
        left
        refine ⟨by simp [Plugin.retry_container_reconcile, hc, hs, hp],
          by simp [Plugin.retry_container_reconcile, hc, hs, hp], ?_⟩
        intro cs' m h _ hps _
        cases h
        rw [hp] at hps
        simp at hps
      | some ps =>
        cases hg : ps.group_state with
        | Failed =>
          left
          refine ⟨by simp [Plugin.retry_container_reconcile, hc, hs, hp, hg],
            by simp [Plugin.retry_container_reconcile, hc, hs, hp, hg], ?_⟩
          intro cs' m h _ _ _
          cases h
          simp [Plugin.retry_container_reconcile, hc, hs, hp, hg]
        | Exists gp =>
          cases r with
          | error e =>
            left
            refine ⟨by simp [Plugin.retry_container_reconcile, hc, hs, hp, hg],
              by simp [Plugin.retry_container_reconcile, hc, hs, hp, hg], ?_⟩
            intro cs' m _ _ _ hr
            cases hr
          | ok m =>
            by_cases hm : m = 0
            · subst hm
              by_cases hcs : cs.state = Plugin.ContainerSyncState.Partial
              · right
                exact ⟨cs, ps, gp, rfl, hcs, hp, hg, rfl,
                  by simp [Plugin.retry_container_reconcile, hc, hs, hp, hg, hcs]⟩
              · left
                refine ⟨by simp [Plugin.retry_container_reconcile, hc, hs, hp, hg, hcs],
                  by simp [Plugin.retry_container_reconcile, hc, hs, hp, hg, hcs], ?_⟩
                intro cs' m' h _ _ _
                cases h
                simp [Plugin.retry_container_reconcile, hc, hs, hp, hg, hcs]
            · left
              refine ⟨by simp [Plugin.retry_container_reconcile, hc, hs, hp, hg, hm],
                by simp [Plugin.retry_container_reconcile, hc, hs, hp, hg, hm], ?_⟩
              intro cs' m' h _ _ _
              cases h
              simp [Plugin.retry_container_reconcile, hc, hs, hp, hg, hm]

/-- C4 (amended): `retry_container_reconcile` on a container recorded as
Reconciled (with its pod present) leaves the plugin state unchanged and
emits no event, and returns Ok(Reconciled) whenever the `reconcile_group`
outcome is a success (a failure outcome is propagated as an error, still
with no event and no state change); moreover, for every state and outcome,
the call never changes any container out of Reconciled, never decreases any
pod's reconciled_containers, and emits an AddOrUpdate only when the target
container transitions from Partial to Reconciled. -/
theorem claim_C4_no_regression (st : Plugin.InnerState) (cid : String)
    (r : Except Plugin.RError Nat) :
    (∀ cs, alookup st.containers cid = some cs →
      cs.state = .Reconciled →
      (alookup st.pods cs.pod_uid).isSome = true →
      (Plugin.retry_container_reconcile st cid r).state = st ∧
      (Plugin.retry_container_reconcile st cid r).events = [] ∧
      ∀ m, r = .ok m →
        (Plugin.retry_container_reconcile st cid r).result = .ok .Reconciled) ∧
    (∀ cid' cs', alookup st.containers cid' = some cs' →
      cs'.state = .Reconciled →
      ∃ cs'', alookup (Plugin.retry_container_reconcile st cid r).state.containers cid' =
        some cs'' ∧ cs''.state = .Reconciled) ∧
    (∀ uid ps, alookup st.pods uid = some ps →
      ∃ ps', alookup (Plugin.retry_container_reconcile st cid r).state.pods uid =
        some ps' ∧ ps.reconciled_containers ≤ ps'.reconciled_containers) ∧
    ((Plugin.retry_container_reconcile st cid r).events ≠ [] →
      ∃ cs, alookup st.containers cid = some cs ∧ cs.state = .Partial ∧
        (Plugin.retry_container_reconcile st cid r).result = .ok .Reconciled) := by
  rcases rcr_char st cid r with ⟨hst, hev, hres⟩ | ⟨cs, ps, gp, hc, hcs, hp, hg, hr, hout⟩
  · refine ⟨?_, ?_, ?_, ?_⟩
    · intro cs hc hrec hps
      refine ⟨hst, hev, ?_⟩
      intro m hm
      have h := hres cs m hc (by rw [hrec]; intro hx; cases hx) hps hm
      rw [hrec] at h
      exact h
    · intro cid' cs' h' hs'
      exact ⟨cs', by rw [hst]; exact h', hs'⟩
    · intro uid ps h
      exact ⟨ps, by rw [hst]; exact h, le_refl _⟩
    · intro hne
      exact absurd hev hne
  · refine ⟨?_, ?_, ?_, ?_⟩
    · intro cs0 hc0 hrec _
      rw [hc] at hc0
      cases hc0
      rw [hcs] at hrec
      cases hrec
    · intro cid' cs' h' hs'
      by_cases he : cid' = cid
      · subst he
        rw [hc] at h'
        cases h'
        rw [hcs] at hs'
        cases hs'
      · refine ⟨cs', ?_, hs'⟩
        simp only [hout]
        rw [alookup_aupdate_ne _ _ _ _ he]
        exact h'
    · intro uid ps0 h0
      by_cases he : uid = cs.pod_uid
      · subst he
        rw [hp] at h0
        cases h0
        refine ⟨{ ps with reconciled_containers := ps.reconciled_containers + 1 }, ?_,
          Nat.le_succ _⟩
        simp only [hout]
        exact alookup_aupdate_self _ _ _
      · refine ⟨ps0, ?_, le_refl _⟩
        simp only [hout]
        rw [alookup_aupdate_ne _ _ _ _ he]
        exact h0
    · intro _
      exact ⟨cs, hc, hcs, by rw [hout]⟩

/-- Concrete state for the C4 witness: a Reconciled container whose pod
group exists, with a successful reconcile outcome. -/
theorem claim_C4_no_regression_witness :
    (alookup c4State.containers "c" = some ⟨"u", "/cg/c", .Reconciled⟩ ∧
      (alookup c4State.pods "u").isSome = true) ∧
    (Plugin.retry_container_reconcile c4State "c" (.ok 0)).state = c4State ∧
    (Plugin.retry_container_reconcile c4State "c" (.ok 0)).events = [] ∧
    (Plugin.retry_container_reconcile c4State "c" (.ok 0)).result = .ok .Reconciled := by
  have h := (claim_C4_no_regression c4State "c" (.ok 0)).1
    ⟨"u", "/cg/c", .Reconciled⟩ (by decide) (by decide) (by decide)
  exact ⟨⟨by decide, by decide⟩, h.1, h.2.1, h.2.2 0 rfl⟩

theorem filterMap_if_fst {κ α : Type} [DecidableEq κ] (p : κ × α → Prop)
    [DecidablePred p] (l : List (κ × α)) :
    (l.filterMap fun kv => if p kv then some kv.1 else none) =
      (l.filter fun kv => decide (p kv)).map Prod.fst := by
  induction l with
  | nil => simp
  | cons kv rest ih =>
    by_cases hp : p kv
    · simp [List.filterMap_cons, List.filter_cons, hp, ih]
    · simp [List.filterMap_cons, List.filter_cons, hp, ih]

theorem failedSnapshot_eq (st : Plugin.InnerState) :
    Plugin.failedSnapshot st =
      (st.pods.filter fun kv =>
        decide (kv.2.group_state = Plugin.ResctrlGroupState.Failed)).map Prod.fst := by
  unfold Plugin.failedSnapshot
  exact filterMap_if_fst _ _

theorem failedSnapshot_nodup (st : Plugin.InnerState)
    (h : (st.pods.map Prod.fst).Nodup) : (Plugin.failedSnapshot st).Nodup := by
  rw [failedSnapshot_eq]
  exact filter_keys_nodup _ h

theorem mem_failedSnapshot (st : Plugin.InnerState) (uid : String)
    (hN : (st.pods.map Prod.fst).Nodup) (h : uid ∈ Plugin.failedSnapshot st) :
    ∃ ps, alookup st.pods uid = some ps ∧
      ps.group_state = Plugin.ResctrlGroupState.Failed := by
  rw [failedSnapshot_eq] at h
  rcases List.mem_map.mp h with ⟨⟨k, ps⟩, hm, he⟩
  subst he
  have hmem := List.mem_of_mem_filter hm
  have hp := List.of_mem_filter hm
  simp only [decide_eq_true_eq] at hp
  exact ⟨ps, alookup_of_mem hN hmem, hp⟩

/-- The prefix of failed-pod uids actually attempted in one pass: everything
up to and including the first uid whose `create_group` outcome is Capacity. -/
def takeThroughCapacity (oracles : Plugin.RetryOracles) : List String → List String
  | [] => []
  | uid :: rest =>
    match oracles.createRes uid with
    | .error .Capacity => [uid]
    | _ => uid :: takeThroughCapacity oracles rest

theorem rgc_failed_ok (st : Plugin.InnerState) (uid p : String)
    (ps : Plugin.PodState) (h1 : alookup st.pods uid = some ps)
    (h2 : ps.group_state = .Failed) :
    Plugin.retry_group_creation st uid (.ok p) =
      ⟨.ok (.Exists p),
        { st with
          pods := aupdate st.pods uid { ps with group_state := Plugin.ResctrlGroupState.Exists p } },
        [Plugin.emitAddOrUpdate uid { ps with group_state := Plugin.ResctrlGroupState.Exists p }],
        [.createGroup uid]⟩ := by
  simp only [Plugin.retry_group_creation, h1, h2]

theorem rgc_failed_err (st : Plugin.InnerState) (uid : String)
    (e : Plugin.RError) (ps : Plugin.PodState) (h1 : alookup st.pods uid = some ps)
    (h2 : ps.group_state = .Failed) :
    Plugin.retry_group_creation st uid (.error e) =
      ⟨.error (.Resctrl e), st, [], [.createGroup uid]⟩ := by
  simp only [Plugin.retry_group_creation, h1, h2]

theorem group_loop_benign (oracles : Plugin.RetryOracles) (fp : List String) :
    ∀ st : Plugin.InnerState, (st.pods.map Prod.fst).Nodup → fp.Nodup →
    (∀ uid ∈ fp, ∃ ps, alookup st.pods uid = some ps ∧
      ps.group_state = Plugin.ResctrlGroupState.Failed) →
    (∀ uid ∈ fp, (∃ p, oracles.createRes uid = .ok p) ∨
      oracles.createRes uid = .error .Capacity) →
    (Plugin.retry_group_loop oracles st fp).2.2.1 = takeThroughCapacity oracles fp ∧
    (Plugin.retry_group_loop oracles st fp).2.2.2 = none := by
  induction fp with
  | nil => intro st _ _ _ _; simp [Plugin.retry_group_loop, takeThroughCapacity]
  | cons uid rest ih =>
    intro st hN hnd hmem hben
    rcases hmem uid (List.mem_cons_self _ _) with ⟨ps, hl, hf⟩
    rcases hben uid (List.mem_cons_self _ _) with ⟨p, hok⟩ | hcap
    · -- successful creation: loop continues on the updated state
      have hstep := rgc_failed_ok st uid p ps hl hf
      set st' : Plugin.InnerState :=
        { st with
          pods := aupdate st.pods uid { ps with group_state := Plugin.ResctrlGroupState.Exists p } }
        with hst'
      have hN' : (st'.pods.map Prod.fst).Nodup := aupdate_keys_nodup _ _ hN
      have hmem' : ∀ u ∈ rest, ∃ ps', alookup st'.pods u = some ps' ∧
          ps'.group_state = Plugin.ResctrlGroupState.Failed := by
        intro u hu
        rcases hmem u (List.mem_cons_of_mem _ hu) with ⟨ps', hl', hf'⟩
        have hne : u ≠ uid := by
          intro he; subst he
          exact (List.nodup_cons.mp hnd).1 hu
        refine ⟨ps', ?_, hf'⟩
        show alookup (aupdate st.pods uid _) u = some ps'
        rw [alookup_aupdate_ne _ _ _ _ hne]
        exact hl'
      have hrest := ih st' hN' (List.Nodup.of_cons hnd) hmem'
        (fun u hu => hben u (List.mem_cons_of_mem _ hu))
      rcases hq : Plugin.retry_group_loop oracles st' rest with ⟨st2, evs2, atts2, r2⟩
      rw [hq] at hrest
      simp only [Plugin.retry_group_loop, hok, hstep, hq, takeThroughCapacity]
      exact ⟨by simpa using hrest.1, by simpa using hrest.2⟩
    · -- capacity: loop stops here
      have hstep := rgc_failed_err st uid .Capacity ps hl hf
      simp only [Plugin.retry_group_loop, hcap, hstep, takeThroughCapacity]
      simp

theorem rcr_result_shape (st : Plugin.InnerState) (cid : String) (m : Nat) :
    (Plugin.retry_container_reconcile st cid (.ok m)).result =
        .error .ContainerNotFound ∨
    (Plugin.retry_container_reconcile st cid (.ok m)).result = .error .PodNotFound ∨
    ∃ s, (Plugin.retry_container_reconcile st cid (.ok m)).result = .ok s := by
  cases hc : alookup st.containers cid with
  | none => left; simp [Plugin.retry_container_reconcile, hc]
  | some cs =>
    by_cases hs : cs.state = Plugin.ContainerSyncState.NoPod
    · right; right
      exact ⟨Plugin.ContainerSyncState.NoPod,
        by simp [Plugin.retry_container_reconcile, hc, hs]⟩
    · cases hp : alookup st.pods cs.pod_uid with
      | none =>
        right; left
        simp [Plugin.retry_container_reconcile, hc, hs, hp]
      | some ps =>
        cases hg : ps.group_state with
        | Failed =>
          right; right
          exact ⟨cs.state, by simp [Plugin.retry_container_reconcile, hc, hs, hp, hg]⟩
        | Exists gp =>
          by_cases hpart : cs.state = Plugin.ContainerSyncState.Partial
          · by_cases hm : m = 0
            · right; right
              exact ⟨Plugin.ContainerSyncState.Reconciled,
                by simp [Plugin.retry_container_reconcile, hc, hs, hp, hg, hpart, hm]⟩
            · right; right
              exact ⟨cs.state,
                by simp [Plugin.retry_container_reconcile, hc, hs, hp, hg, hpart, hm]⟩
          · right; right
            exact ⟨cs.state,
              by simp [Plugin.retry_container_reconcile, hc, hs, hp, hg, hpart]⟩

theorem container_loop_ok (oracles : Plugin.RetryOracles) (pc : List String) :
    ∀ st : Plugin.InnerState,
    (∀ cid ∈ pc, ∃ m, oracles.reconcileRes cid = .ok m) →
    (Plugin.retry_container_loop oracles st pc).2.2.1 = pc ∧
    (Plugin.retry_container_loop oracles st pc).2.2.2 = none := by
  induction pc with
  | nil => intro st _; simp [Plugin.retry_container_loop]
  | cons cid rest ih =>
    intro st hok
    rcases hok cid (List.mem_cons_self _ _) with ⟨m, hm⟩
    have hrest := fun st' => ih st' (fun c hc => hok c (List.mem_cons_of_mem _ hc))
    rcases rcr_result_shape st cid m with hres | hres | ⟨s, hres⟩ <;>
      · simp only [Plugin.retry_container_loop, hm, hres]
        simp [(hrest _).1, (hrest _).2]

/-- Concrete state and oracles for the C5 counterexample: one Failed pod
whose group retry fails with a non-Capacity resctrl error, and one Partial
container whose reconcile would succeed. -/
def c5State : Plugin.InnerState :=
  ⟨[("u", ⟨.Failed, 1, 0⟩)], [("c", ⟨"u", "/cg/c", .Partial⟩)]⟩

def c5Oracles : Plugin.RetryOracles :=
  ⟨fun _ => .error (.Other 7), fun _ => .ok 0⟩

/-- C5 counterexample: the container "c" is snapshotted as Partial, but a
non-Capacity error during the group-creation phase aborts the whole pass,
so no container reconcile is attempted, contradicting the claim that
container reconciles are retried unconditionally for every snapshotted
Partial container; the container stays Partial although its reconcile
oracle would have succeeded. -/
theorem claim_C5_counterexample :
    Plugin.partialSnapshot c5State = ["c"] ∧
    Plugin.failedSnapshot c5State = ["u"] ∧
    (Plugin.retry_all_once c5State c5Oracles).result = .error (.Resctrl (.Other 7)) ∧
    (Plugin.retry_all_once c5State c5Oracles).containerAttempts = [] ∧
    (alookup (Plugin.retry_all_once c5State c5Oracles).state.containers "c").map
      (·.state) = some .Partial := by
  refine ⟨by decide, by decide, by decide, by decide, by decide⟩

/-- C5 (amended): `retry_all_once` snapshots the Failed pods and Partial
containers under the lock; when every snapshotted group-creation outcome is
a success or Capacity, group creation is retried in snapshot order and
stops (for the whole pass) at the first Capacity error, and when every
snapshotted container's reconcile outcome is a success the container
reconciles are then attempted for every snapshotted Partial container, with
missing pods or containers skipped and no error returned.  (A non-Capacity
error in either phase instead aborts the pass with that error, as the
counterexample shows.) -/
theorem claim_C5_retry_all_once (st : Plugin.InnerState)
    (oracles : Plugin.RetryOracles)
    (hN : (st.pods.map Prod.fst).Nodup)
    (hg : ∀ uid ∈ Plugin.failedSnapshot st,
      (∃ p, oracles.createRes uid = .ok p) ∨
        oracles.createRes uid = .error .Capacity)
    (hr : ∀ cid ∈ Plugin.partialSnapshot st,
      ∃ m, oracles.reconcileRes cid = .ok m) :
    (Plugin.retry_all_once st oracles).result = .ok () ∧
    (Plugin.retry_all_once st oracles).groupAttempts =
      takeThroughCapacity oracles (Plugin.failedSnapshot st) ∧
    (Plugin.retry_all_once st oracles).containerAttempts =
      Plugin.partialSnapshot st := by
  have hgl := group_loop_benign oracles (Plugin.failedSnapshot st) st hN
    (failedSnapshot_nodup st hN) (fun uid hu => mem_failedSnapshot st uid hN hu) hg
  rcases hq1 : Plugin.retry_group_loop oracles st (Plugin.failedSnapshot st) with
    ⟨st1, evs1, atts1, r1⟩
  rw [hq1] at hgl
  simp only at hgl
  have hcl := container_loop_ok oracles (Plugin.partialSnapshot st) st1 hr
  rcases hq2 : Plugin.retry_container_loop oracles st1 (Plugin.partialSnapshot st) with
    ⟨st2, evs2, atts2, r2⟩
  rw [hq2] at hcl
  simp only at hcl
  simp [Plugin.retry_all_once, hq1, hq2, hgl.1, hgl.2, hcl.1, hcl.2]

/-- Concrete state and oracles for the C5 witness: three Failed pods where
the second hits Capacity (so the third is not attempted), and one Partial
container that is still reconciled afterwards. -/
def c5wState : Plugin.InnerState :=
  ⟨[("a", ⟨.Failed, 1, 0⟩), ("b", ⟨.Failed, 0, 0⟩), ("d", ⟨.Failed, 0, 0⟩)],
    [("x", ⟨"a", "/cg/x", .Partial⟩)]⟩

def c5wOracles : Plugin.RetryOracles :=
  ⟨fun uid => if uid == "b" then .error .Capacity else .ok ("/r/pod_" ++ uid),
    fun _ => .ok 0⟩

theorem claim_C5_retry_all_once_witness :
    (c5wState.pods.map Prod.fst).Nodup ∧
    Plugin.failedSnapshot c5wState = ["a", "b", "d"] ∧
    Plugin.partialSnapshot c5wState = ["x"] ∧
    (Plugin.retry_all_once c5wState c5wOracles).result = .ok () ∧
    (Plugin.retry_all_once c5wState c5wOracles).groupAttempts = ["a", "b"] ∧
    (Plugin.retry_all_once c5wState c5wOracles).containerAttempts = ["x"] := by
  have h := claim_C5_retry_all_once c5wState c5wOracles (by decide)
    (by
      intro uid _
      by_cases hb : uid = "b"
      · subst hb; right; rfl
      · exact Or.inl ⟨"/r/pod_" ++ uid, by simp [c5wOracles, hb]⟩)
    (fun cid _ => ⟨0, rfl⟩)
  refine ⟨by decide, by decide, by decide, h.1, ?_, ?_⟩
  · rw [h.2.1]; decide
  · rw [h.2.2]; decide

/-- C3: processing a TIMESLOT boundary replaces the current timeslot with a
fresh empty one keyed by the new timestamp and try_sends the completed one
to the writer channel strictly before flush_removals is applied (structural
conjunct: the boundary handler is exactly send-then-flush); consequently a
perf measurement of the closing timeslot processed before the boundary
resolves against its pid's metadata even when a TASK_FREE for that pid was
observed earlier in the same timeslot. -/
theorem claim_C3_boundary_send_then_flush (s : Collector.ProcessorState)
    (p oldTs newTs : Nat) (m : Collector.TaskMetadata) (metric : Collector.Metric)
    (hm : s.task_collection.lookup p = some m)
    (hcur : alookup s.current_timeslot.entries p = none)
    (hch : s.chan.queue.length < s.chan.capacity) :
    (∀ t : Collector.ProcessorState,
      Collector.processEvent t (.timeslot oldTs newTs) =
        Collector.handle_task_collection_flush
          (Collector.handle_new_timeslot t newTs)) ∧
    ((Collector.processEvent
        (Collector.processEvent (Collector.processEvent s (.taskFree p))
          (.perfMeasurement p metric))
        (.timeslot oldTs newTs)).current_timeslot = Collector.TimeslotData.new newTs) ∧
    ((Collector.processEvent
        (Collector.processEvent (Collector.processEvent s (.taskFree p))
          (.perfMeasurement p metric))
        (.timeslot oldTs newTs)).chan.queue =
      s.chan.queue ++
        [(Collector.processEvent (Collector.processEvent s (.taskFree p))
            (.perfMeasurement p metric)).current_timeslot]) ∧
    (alookup (Collector.processEvent (Collector.processEvent s (.taskFree p))
        (.perfMeasurement p metric)).current_timeslot.entries p =
      some ⟨some m, metric⟩) ∧
    ((Collector.processEvent
        (Collector.processEvent (Collector.processEvent s (.taskFree p))
          (.perfMeasurement p metric))
        (.timeslot oldTs newTs)).task_collection =
      (Collector.processEvent (Collector.processEvent s (.taskFree p))
        (.perfMeasurement p metric)).task_collection.flush_removals) := by
  refine ⟨fun t => rfl, rfl, ?_, ?_, rfl⟩
  · -- the send happens on the pre-flush state and appends the completed slot
    simp only [Collector.processEvent, Collector.handle_task_collection_flush,
      Collector.handle_new_timeslot, Collector.handle_perf_measurement,
      Collector.handle_task_free, Collector.TimeslotChannel.trySend]
    rw [if_pos hch]
  · -- the entry resolves against the metadata despite the earlier TASK_FREE
    simp only [Collector.processEvent, Collector.handle_perf_measurement,
      Collector.handle_task_free, Collector.TaskCollection.queue_removal,
      Collector.TaskCollection.lookup, Collector.TimeslotData.update]
    have hl : s.task_collection.lookup p = some m := hm
    simp only [Collector.TaskCollection.lookup] at hl
    rw [hl, hcur]
    exact alookup_aupdate_self _ _ _

def c3Meta : Collector.TaskMetadata := ⟨42, "task-a", 9⟩

def c3Metric : Collector.Metric := ⟨1000, 2000, 3, 4, 5⟩

/-- Concrete processor state for the C3 witness: pid 42's metadata is known,
the current timeslot (key 100) is empty, and the channel has room. -/
def c3State : Collector.ProcessorState :=
  ⟨⟨[(42, c3Meta)], []⟩, Collector.TimeslotData.new 100, ⟨1000, []⟩⟩

theorem claim_C3_boundary_send_then_flush_witness :
    (c3State.task_collection.lookup 42 = some c3Meta ∧
      alookup c3State.current_timeslot.entries 42 = none ∧
      c3State.chan.queue.length < c3State.chan.capacity) ∧
    (Collector.processEvent
        (Collector.processEvent (Collector.processEvent c3State (.taskFree 42))
          (.perfMeasurement 42 c3Metric))
        (.timeslot 100 200)).current_timeslot = Collector.TimeslotData.new 200 ∧
    (Collector.processEvent
        (Collector.processEvent (Collector.processEvent c3State (.taskFree 42))
          (.perfMeasurement 42 c3Metric))
        (.timeslot 100 200)).chan.queue =
      c3State.chan.queue ++
        [(Collector.processEvent (Collector.processEvent c3State (.taskFree 42))
            (.perfMeasurement 42 c3Metric)).current_timeslot] ∧
    alookup (Collector.processEvent (Collector.processEvent c3State (.taskFree 42))
        (.perfMeasurement 42 c3Metric)).current_timeslot.entries 42 =
      some ⟨some c3Meta, c3Metric⟩ :=
  have h := claim_C3_boundary_send_then_flush c3State 42 100 200 c3Meta c3Metric
    (by decide) (by decide) (by decide)
  ⟨⟨by decide, by decide, by decide⟩, h.2.1, h.2.2.1, h.2.2.2.1⟩

namespace Plugin

/-- Well-formedness of one operation against the current state: the
REMOVE_CONTAINER event must name the pod its container was registered under
(the NRI runtime pairs each container with its own pod).  All other
operations are unconstrained. -/
def wfOp (st : InnerState) : Op → Bool
  | .removeContainer uid cid =>
    match alookup st.containers cid with
    | some cs => cs.pod_uid == uid
    | none => true
  | _ => true

/-- Well-formedness of an operation sequence along its own run. -/
def wfRun : InnerState → List Op → Bool
  | _, [] => true
  | st, op :: rest => wfOp st op && wfRun (applyOp st op).1 rest

/-- Containers counted by `total_containers` of pod `uid`. -/
def podPredC (uid : String) (cs : ContainerState) : Bool :=
  cs.pod_uid == uid && cs.state != ContainerSyncState.NoPod

/-- Containers counted by `reconciled_containers` of pod `uid`. -/
def podPredR (uid : String) (cs : ContainerState) : Bool :=
  cs.pod_uid == uid && cs.state == ContainerSyncState.Reconciled

/-- The strengthened reachability invariant: map keys are distinct, the two
per-pod counters count exactly the non-NoPod / Reconciled containers
registered under the pod, every non-NoPod container's pod is present, and
every Reconciled container's pod has an existing group. -/
def InvFull (st : InnerState) : Prop :=
  (st.pods.map Prod.fst).Nodup ∧
  (st.containers.map Prod.fst).Nodup ∧
  (∀ uid ps, alookup st.pods uid = some ps →
    ps.total_containers = countP (podPredC uid) st.containers ∧
    ps.reconciled_containers = countP (podPredR uid) st.containers) ∧
  (∀ cid cs, alookup st.containers cid = some cs →
    cs.state ≠ ContainerSyncState.NoPod →
    (alookup st.pods cs.pod_uid).isSome = true) ∧
  (∀ cid cs, alookup st.containers cid = some cs →
    cs.state = ContainerSyncState.Reconciled →
    ∃ ps gp, alookup st.pods cs.pod_uid = some ps ∧
      ps.group_state = ResctrlGroupState.Exists gp)

end Plugin

theorem invFull_empty : Plugin.InvFull Plugin.emptyState := by
  refine ⟨by simp [Plugin.emptyState], by simp [Plugin.emptyState], ?_, ?_, ?_⟩
  · intro uid ps h; cases h
  · intro cid cs h; cases h
  · intro cid cs h; cases h

theorem invFull_podsInvB (st : Plugin.InnerState) (h : Plugin.InvFull st) :
    Plugin.podsInvB st = true := by
  obtain ⟨hNp, hNc, hcnt, _h4, h5⟩ := h
  rw [Plugin.podsInvB, List.all_eq_true]
  rintro ⟨uid, ps⟩ hm
  have hl := alookup_of_mem hNp hm
  obtain ⟨ht, hr⟩ := hcnt uid ps hl
  have hle : ps.reconciled_containers ≤ ps.total_containers := by
    rw [ht, hr]
    refine countP_mono _ ?_
    intro cs hq
    simp only [Plugin.podPredR, Bool.and_eq_true, beq_iff_eq] at hq
    simp [Plugin.podPredC, hq.1, hq.2]
  simp only [Bool.and_eq_true]
  refine ⟨by simpa using hle, ?_⟩
  by_cases hf : ps.group_state = Plugin.ResctrlGroupState.Failed
  · have hzero : countP (Plugin.podPredR uid) st.containers = 0 := by
      rw [countP_eq_zero_iff]
      rintro ⟨cid, cs⟩ hmc
      by_cases hq : Plugin.podPredR uid cs
      · exfalso
        simp only [Plugin.podPredR, Bool.and_eq_true, beq_iff_eq] at hq
        have hlc := alookup_of_mem hNc hmc
        rcases h5 cid cs hlc hq.2 with ⟨ps', gp, hl', hg'⟩
        rw [hq.1, hl] at hl'
        cases hl'
        rw [hf] at hg'
        cases hg'
      · simpa using hq
    simp [hf, hr, hzero]
  · simp [hf]

/-- State characterization of `retry_group_creation`: either the state is
untouched, or the pod transitions Failed to Exists with counters kept. -/
theorem rgc_state_char (st : Plugin.InnerState) (uid : String)
    (r : Except Plugin.RError String) :
    (Plugin.retry_group_creation st uid r).state = st ∨
    (∃ ps path, alookup st.pods uid = some ps ∧
      ps.group_state = Plugin.ResctrlGroupState.Failed ∧ r = .ok path ∧
      (Plugin.retry_group_creation st uid r).state =
        { st with
          pods := aupdate st.pods uid
            { ps with group_state := Plugin.ResctrlGroupState.Exists path } }) := by
  cases hl : alookup st.pods uid with
  | none => left; simp [Plugin.retry_group_creation, hl]
  | some ps =>
    cases hg : ps.group_state with
    | Exists p => left; simp [Plugin.retry_group_creation, hl, hg]
    | Failed =>
      cases r with
      | error e => left; simp [Plugin.retry_group_creation, hl, hg]
      | ok path =>
        right
        exact ⟨ps, path, rfl, hg, rfl,
          by simp [Plugin.retry_group_creation, hl, hg]⟩

theorem alookup_aupdate_isSome {κ α : Type} [DecidableEq κ]
    (l : List (κ × α)) (k k' : κ) (v : α)
    (h : (alookup l k').isSome = true) :
    (alookup (aupdate l k v) k').isSome = true := by
  by_cases he : k' = k
  · subst he; simp [alookup_aupdate_self]
  · rw [alookup_aupdate_ne _ _ _ _ he]; exact h

theorem alookup_aremove_some {κ α : Type} [DecidableEq κ]
    {l : List (κ × α)} {k k' : κ} {v : α} (hN : (l.map Prod.fst).Nodup)
    (h : alookup (aremove l k) k' = some v) : alookup l k' = some v := by
  by_cases he : k' = k
  · subst he; rw [alookup_aremove_self hN] at h; cases h
  · rw [alookup_aremove_ne _ _ _ he] at h; exact h

theorem countP_pos_of_mem {κ α : Type} [DecidableEq κ] {p : α → Bool}
    {l : List (κ × α)} {kv : κ × α} (hm : kv ∈ l) (hp : p kv.2 = true) :
    1 ≤ countP p l := by
  have : kv ∈ l.filter fun kv => p kv.2 := List.mem_filter.mpr ⟨hm, hp⟩
  have := List.length_pos.mpr (List.ne_nil_of_mem this)
  simpa [countP] using this

theorem inv_insert_pod (st : Plugin.InnerState) (uid : String)
    (gs : Plugin.ResctrlGroupState) (hInv : Plugin.InvFull st)
    (hl : alookup st.pods uid = none) :
    Plugin.InvFull { st with pods := aupdate st.pods uid ⟨gs, 0, 0⟩ } := by
  obtain ⟨hNp, hNc, hcnt, h4, h5⟩ := hInv
  have hzC : countP (Plugin.podPredC uid) st.containers = 0 := by
    rw [countP_eq_zero_iff]
    rintro ⟨cid, cs⟩ hm
    by_cases hq : Plugin.podPredC uid cs
    · exfalso
      simp only [Plugin.podPredC, Bool.and_eq_true, beq_iff_eq, bne_iff_ne, ne_eq] at hq
      have h := h4 cid cs (alookup_of_mem hNc hm) hq.2
      rw [hq.1, hl] at h
      simp at h
    · simpa using hq
  have hzR : countP (Plugin.podPredR uid) st.containers = 0 := by
    rw [countP_eq_zero_iff]
    rintro ⟨cid, cs⟩ hm
    by_cases hq : Plugin.podPredR uid cs
    · exfalso
      simp only [Plugin.podPredR, Bool.and_eq_true, beq_iff_eq] at hq
      have h := h4 cid cs (alookup_of_mem hNc hm) (by rw [hq.2]; intro hx; cases hx)
      rw [hq.1, hl] at h
      simp at h
    · simpa using hq
  refine ⟨aupdate_keys_nodup _ _ hNp, hNc, ?_, ?_, ?_⟩
  · intro u ps h
    by_cases he : u = uid
    · subst he
      rw [alookup_aupdate_self] at h
      cases h
      exact ⟨hzC.symm, hzR.symm⟩
    · rw [alookup_aupdate_ne _ _ _ _ he] at h
      exact hcnt u ps h
  · intro cid cs h hs
    exact alookup_aupdate_isSome _ _ _ _ (h4 cid cs h hs)
  · intro cid cs h hs
    rcases h5 cid cs h hs with ⟨ps', gp, hl', hg'⟩
    have hne : cs.pod_uid ≠ uid := by
      intro he; rw [he, hl] at hl'; cases hl'
    exact ⟨ps', gp, by rw [alookup_aupdate_ne _ _ _ _ hne]; exact hl', hg'⟩

theorem inv_pods_update (st : Plugin.InnerState) (uid : String)
    (ps ps1 : Plugin.PodState) (hInv : Plugin.InvFull st)
    (hl : alookup st.pods uid = some ps)
    (ht : ps1.total_containers = ps.total_containers)
    (hr : ps1.reconciled_containers = ps.reconciled_containers)
    (hg : ∀ gp, ps.group_state = Plugin.ResctrlGroupState.Exists gp →
      ∃ gp', ps1.group_state = Plugin.ResctrlGroupState.Exists gp') :
    Plugin.InvFull { st with pods := aupdate st.pods uid ps1 } := by
  obtain ⟨hNp, hNc, hcnt, h4, h5⟩ := hInv
  refine ⟨aupdate_keys_nodup _ _ hNp, hNc, ?_, ?_, ?_⟩
  · intro u ps' h
    by_cases he : u = uid
    · subst he
      rw [alookup_aupdate_self] at h
      cases h
      exact ⟨ht.trans (hcnt _ ps hl).1, hr.trans (hcnt _ ps hl).2⟩
    · rw [alookup_aupdate_ne _ _ _ _ he] at h
      exact hcnt u ps' h
  · intro cid cs h hs
    exact alookup_aupdate_isSome _ _ _ _ (h4 cid cs h hs)
  · intro cid cs h hs
    rcases h5 cid cs h hs with ⟨ps', gp, hl', hg'⟩
    by_cases he : cs.pod_uid = uid
    · rw [he, hl] at hl'
      cases hl'
      rcases hg gp hg' with ⟨gp', hg''⟩
      exact ⟨ps1, gp', by rw [he]; exact alookup_aupdate_self _ _ _, hg''⟩
    · exact ⟨ps', gp, by rw [alookup_aupdate_ne _ _ _ _ he]; exact hl', hg'⟩

theorem inv_insert_nopod (st : Plugin.InnerState) (uid cid cpath : String)
    (hInv : Plugin.InvFull st) (hcid : alookup st.containers cid = none) :
    Plugin.InvFull { st with
      containers := aupdate st.containers cid ⟨uid, cpath, .NoPod⟩ } := by
  obtain ⟨hNp, hNc, hcnt, h4, h5⟩ := hInv
  refine ⟨hNp, aupdate_keys_nodup _ _ hNc, ?_, ?_, ?_⟩
  · intro u ps h
    obtain ⟨hct, hcr⟩ := hcnt u ps h
    constructor
    · rw [countP_aupdate_none _ _ hcid]
      simp [Plugin.podPredC, hct]
    · rw [countP_aupdate_none _ _ hcid]
      simp [Plugin.podPredR, hcr]
  · intro cid' cs h hs
    by_cases he : cid' = cid
    · subst he
      rw [alookup_aupdate_self] at h
      cases h
      simp at hs
    · rw [alookup_aupdate_ne _ _ _ _ he] at h
      exact h4 cid' cs h hs
  · intro cid' cs h hs
    by_cases he : cid' = cid
    · subst he
      rw [alookup_aupdate_self] at h
      cases h
      cases hs
    · rw [alookup_aupdate_ne _ _ _ _ he] at h
      exact h5 cid' cs h hs

theorem inv_insert_container (st : Plugin.InnerState) (uid cid cpath : String)
    (s : Plugin.ContainerSyncState) (ps : Plugin.PodState)
    (hInv : Plugin.InvFull st)
    (hcid : alookup st.containers cid = none)
    (hl : alookup st.pods uid = some ps)
    (hs : s ≠ Plugin.ContainerSyncState.NoPod)
    (hgs : s = Plugin.ContainerSyncState.Reconciled →
      ∃ gp, ps.group_state = Plugin.ResctrlGroupState.Exists gp) :
    Plugin.InvFull
      { pods := aupdate st.pods uid
          { ps with
            total_containers := ps.total_containers + 1,
            reconciled_containers := ps.reconciled_containers +
              (if s = Plugin.ContainerSyncState.Reconciled then 1 else 0) },
        containers := aupdate st.containers cid ⟨uid, cpath, s⟩ } := by
  obtain ⟨hNp, hNc, hcnt, h4, h5⟩ := hInv
  refine ⟨aupdate_keys_nodup _ _ hNp, aupdate_keys_nodup _ _ hNc, ?_, ?_, ?_⟩
  · intro u ps' h
    by_cases he : u = uid
    · subst he
      rw [alookup_aupdate_self] at h
      cases h
      obtain ⟨hct, hcr⟩ := hcnt u ps hl
      constructor
      · rw [countP_aupdate_none _ _ hcid]
        have hpc : Plugin.podPredC u ⟨u, cpath, s⟩ = true := by
          simp [Plugin.podPredC, hs]
        simp [hpc, hct]
      · rw [countP_aupdate_none _ _ hcid]
        by_cases hsr : s = Plugin.ContainerSyncState.Reconciled <;>
          simp [Plugin.podPredR, hsr, hcr]
    · rw [alookup_aupdate_ne _ _ _ _ he] at h
      obtain ⟨hct, hcr⟩ := hcnt u ps' h
      have hne : uid ≠ u := fun hx => he hx.symm
      constructor
      · rw [countP_aupdate_none _ _ hcid]
        simp [Plugin.podPredC, hne, hct]
      · rw [countP_aupdate_none _ _ hcid]
        simp [Plugin.podPredR, hne, hcr]
  · intro cid' cs h hs'
    by_cases he : cid' = cid
    · subst he
      rw [alookup_aupdate_self] at h
      cases h
      simp [alookup_aupdate_self]
    · rw [alookup_aupdate_ne _ _ _ _ he] at h
      exact alookup_aupdate_isSome _ _ _ _ (h4 cid' cs h hs')
  · intro cid' cs h hs'
    by_cases he : cid' = cid
    · subst he
      rw [alookup_aupdate_self] at h
      cases h
      rcases hgs hs' with ⟨gp, hg⟩
      refine ⟨{ ps with
          total_containers := ps.total_containers + 1,
          reconciled_containers := ps.reconciled_containers +
            (if s = Plugin.ContainerSyncState.Reconciled then 1 else 0) }, gp,
        alookup_aupdate_self st.pods uid _, hg⟩
    · rw [alookup_aupdate_ne _ _ _ _ he] at h
      rcases h5 cid' cs h hs' with ⟨ps', gp, hl', hg'⟩
      by_cases hpe : cs.pod_uid = uid
      · rw [hpe, hl] at hl'
        cases hl'
        exact ⟨{ ps with
            total_containers := ps.total_containers + 1,
            reconciled_containers := ps.reconciled_containers +
              (if s = Plugin.ContainerSyncState.Reconciled then 1 else 0) }, gp,
          by rw [hpe]; exact alookup_aupdate_self st.pods uid _, hg'⟩
      · exact ⟨ps', gp, by rw [alookup_aupdate_ne _ _ _ _ hpe]; exact hl', hg'⟩

theorem inv_remove_update (st : Plugin.InnerState) (uid cid : String)
    (cs : Plugin.ContainerState) (ps ps1 : Plugin.PodState)
    (hInv : Plugin.InvFull st)
    (hcs : alookup st.containers cid = some cs)
    (hp : alookup st.pods uid = some ps)
    (hpu : cs.pod_uid = uid)
    (ht : ps1.total_containers +
      (if Plugin.podPredC uid cs = true then 1 else 0) = ps.total_containers)
    (hr : ps1.reconciled_containers +
      (if Plugin.podPredR uid cs = true then 1 else 0) = ps.reconciled_containers)
    (hg : ps1.group_state = ps.group_state) :
    Plugin.InvFull
      { pods := aupdate st.pods uid ps1,
        containers := aremove st.containers cid } := by
  obtain ⟨hNp, hNc, hcnt, h4, h5⟩ := hInv
  refine ⟨aupdate_keys_nodup _ _ hNp, aremove_keys_nodup _ hNc, ?_, ?_, ?_⟩
  · intro u ps' h
    by_cases he : u = uid
    · subst he
      rw [alookup_aupdate_self] at h
      cases h
      obtain ⟨hct, hcr⟩ := hcnt u ps hp
      have hremC := countP_aremove_some (Plugin.podPredC u) hNc hcs
      have hremR := countP_aremove_some (Plugin.podPredR u) hNc hcs
      dsimp only
      constructor
      · omega
      · omega
    · rw [alookup_aupdate_ne _ _ _ _ he] at h
      obtain ⟨hct, hcr⟩ := hcnt u ps' h
      have hne : cs.pod_uid ≠ u := by rw [hpu]; exact fun hx => he hx.symm
      have hremC := countP_aremove_some (Plugin.podPredC u) hNc hcs
      have hremR := countP_aremove_some (Plugin.podPredR u) hNc hcs
      have hpc : Plugin.podPredC u cs = false := by simp [Plugin.podPredC, hne]
      have hpr : Plugin.podPredR u cs = false := by simp [Plugin.podPredR, hne]
      simp [hpc] at hremC
      simp [hpr] at hremR
      dsimp only
      constructor
      · omega
      · omega
  · intro cid' cs' h hs'
    exact alookup_aupdate_isSome _ _ _ _
      (h4 cid' cs' (alookup_aremove_some hNc h) hs')
  · intro cid' cs' h hs'
    rcases h5 cid' cs' (alookup_aremove_some hNc h) hs' with ⟨ps', gp, hl', hg'⟩
    by_cases hpe : cs'.pod_uid = uid
    · rw [hpe, hp] at hl'
      cases hl'
      refine ⟨ps1, gp, by rw [hpe]; exact alookup_aupdate_self _ _ _, ?_⟩
      rw [hg]
      exact hg'
    · exact ⟨ps', gp, by rw [alookup_aupdate_ne _ _ _ _ hpe]; exact hl', hg'⟩

theorem inv_remove_container_orphan (st : Plugin.InnerState) (cid : String)
    (cs : Plugin.ContainerState) (hInv : Plugin.InvFull st)
    (hcs : alookup st.containers cid = some cs)
    (hpo : alookup st.pods cs.pod_uid = none) :
    Plugin.InvFull { st with containers := aremove st.containers cid } := by
  obtain ⟨hNp, hNc, hcnt, h4, h5⟩ := hInv
  refine ⟨hNp, aremove_keys_nodup _ hNc, ?_, ?_, ?_⟩
  · intro u ps h
    obtain ⟨hct, hcr⟩ := hcnt u ps h
    have hne : cs.pod_uid ≠ u := by
      intro hx; rw [hx, h] at hpo; cases hpo
    have hremC := countP_aremove_some (Plugin.podPredC u) hNc hcs
    have hremR := countP_aremove_some (Plugin.podPredR u) hNc hcs
    have hpc : Plugin.podPredC u cs = false := by simp [Plugin.podPredC, hne]
    have hpr : Plugin.podPredR u cs = false := by simp [Plugin.podPredR, hne]
    simp [hpc] at hremC
    simp [hpr] at hremR
    dsimp only
    constructor
    · omega
    · omega
  · intro cid' cs' h hs'
    exact h4 cid' cs' (alookup_aremove_some hNc h) hs'
  · intro cid' cs' h hs'
    exact h5 cid' cs' (alookup_aremove_some hNc h) hs'

theorem inv_remove_pod (st : Plugin.InnerState) (uid : String)
    (hInv : Plugin.InvFull st) :
    Plugin.InvFull
      { pods := aremove st.pods uid,
        containers := st.containers.filter fun kv => kv.2.pod_uid ≠ uid } := by
  obtain ⟨hNp, hNc, hcnt, h4, h5⟩ := hInv
  refine ⟨aremove_keys_nodup _ hNp, filter_keys_nodup _ hNc, ?_, ?_, ?_⟩
  · intro u ps h
    have hne : u ≠ uid := by
      intro he; subst he
      rw [alookup_aremove_self hNp] at h; cases h
    rw [alookup_aremove_ne _ _ _ hne] at h
    obtain ⟨hct, hcr⟩ := hcnt u ps h
    dsimp only
    constructor
    · rw [hct]
      symm
      refine @countP_filter_of_imp String Plugin.ContainerState _
        (Plugin.podPredC u) (fun a => decide (a.pod_uid ≠ uid)) st.containers ?_
      intro cs hq
      simp only [Plugin.podPredC, Bool.and_eq_true, beq_iff_eq] at hq
      simp [hq.1, hne]
    · rw [hcr]
      symm
      refine @countP_filter_of_imp String Plugin.ContainerState _
        (Plugin.podPredR u) (fun a => decide (a.pod_uid ≠ uid)) st.containers ?_
      intro cs hq
      simp only [Plugin.podPredR, Bool.and_eq_true, beq_iff_eq] at hq
      simp [hq.1, hne]
  · intro cid cs h hs
    obtain ⟨h', hq⟩ := alookup_filter_some hNc h
    have hne : cs.pod_uid ≠ uid := by simpa using hq
    rw [alookup_aremove_ne _ _ _ hne]
    exact h4 cid cs h' hs
  · intro cid cs h hs
    obtain ⟨h', hq⟩ := alookup_filter_some hNc h
    have hne : cs.pod_uid ≠ uid := by simpa using hq
    rcases h5 cid cs h' hs with ⟨ps', gp, hl', hg'⟩
    exact ⟨ps', gp, by rw [alookup_aremove_ne _ _ _ hne]; exact hl', hg'⟩

theorem inv_transition (st : Plugin.InnerState) (cid : String)
    (cs : Plugin.ContainerState) (ps : Plugin.PodState) (gp : String)
    (hInv : Plugin.InvFull st)
    (hcs : alookup st.containers cid = some cs)
    (hcss : cs.state = Plugin.ContainerSyncState.Partial)
    (hp : alookup st.pods cs.pod_uid = some ps)
    (hg : ps.group_state = Plugin.ResctrlGroupState.Exists gp) :
    Plugin.InvFull
      { pods := aupdate st.pods cs.pod_uid
          { ps with reconciled_containers := ps.reconciled_containers + 1 },
        containers := aupdate st.containers cid { cs with state := .Reconciled } } := by
  obtain ⟨hNp, hNc, hcnt, h4, h5⟩ := hInv
  refine ⟨aupdate_keys_nodup _ _ hNp, aupdate_keys_nodup _ _ hNc, ?_, ?_, ?_⟩
  · intro u ps' h
    have hupC := countP_aupdate_some (Plugin.podPredC u)
      ({ cs with state := Plugin.ContainerSyncState.Reconciled }) hNc hcs
    have hupR := countP_aupdate_some (Plugin.podPredR u)
      ({ cs with state := Plugin.ContainerSyncState.Reconciled }) hNc hcs
    by_cases he : u = cs.pod_uid
    · subst he
      rw [alookup_aupdate_self] at h
      cases h
      obtain ⟨hct, hcr⟩ := hcnt _ ps hp
      have e1 : Plugin.podPredC cs.pod_uid cs = true := by
        simp [Plugin.podPredC, hcss]
      have e2 : Plugin.podPredC cs.pod_uid
          { cs with state := Plugin.ContainerSyncState.Reconciled } = true := by
        simp [Plugin.podPredC]
      have e3 : Plugin.podPredR cs.pod_uid cs = false := by
        simp [Plugin.podPredR, hcss]
      have e4 : Plugin.podPredR cs.pod_uid
          { cs with state := Plugin.ContainerSyncState.Reconciled } = true := by
        simp [Plugin.podPredR]
      simp [e1, e2] at hupC
      simp [e3, e4] at hupR
      dsimp only
      constructor
      · omega
      · omega
    · rw [alookup_aupdate_ne _ _ _ _ he] at h
      obtain ⟨hct, hcr⟩ := hcnt u ps' h
      have hne : cs.pod_uid ≠ u := fun hx => he hx.symm
      have e1 : Plugin.podPredC u cs = false := by simp [Plugin.podPredC, hne]
      have e2 : Plugin.podPredC u
          { cs with state := Plugin.ContainerSyncState.Reconciled } = false := by
        simp [Plugin.podPredC, hne]
      have e3 : Plugin.podPredR u cs = false := by simp [Plugin.podPredR, hne]
      have e4 : Plugin.podPredR u
          { cs with state := Plugin.ContainerSyncState.Reconciled } = false := by
        simp [Plugin.podPredR, hne]
      simp [e1, e2] at hupC
      simp [e3, e4] at hupR
      dsimp only
      constructor
      · omega
      · omega
  · intro cid' cs' h hs'
    by_cases he : cid' = cid
    · subst he
      rw [alookup_aupdate_self] at h
      cases h
      exact alookup_aupdate_isSome _ _ _ _ (by rw [hp]; rfl)
    · rw [alookup_aupdate_ne _ _ _ _ he] at h
      exact alookup_aupdate_isSome _ _ _ _ (h4 cid' cs' h hs')
  · intro cid' cs' h hs'
    by_cases he : cid' = cid
    · subst he
      rw [alookup_aupdate_self] at h
      cases h
      exact ⟨{ ps with reconciled_containers := ps.reconciled_containers + 1 }, gp,
        alookup_aupdate_self _ _ _, hg⟩
    · rw [alookup_aupdate_ne _ _ _ _ he] at h
      rcases h5 cid' cs' h hs' with ⟨ps', gp', hl', hg'⟩
      by_cases hpe : cs'.pod_uid = cs.pod_uid
      · rw [hpe, hp] at hl'
        cases hl'
        exact ⟨{ ps with reconciled_containers := ps.reconciled_containers + 1 }, gp',
          by rw [hpe]; exact alookup_aupdate_self _ _ _, hg'⟩
      · exact ⟨ps', gp', by rw [alookup_aupdate_ne _ _ _ _ hpe]; exact hl', hg'⟩

theorem inv_handle_new_pod (st : Plugin.InnerState) (uid : String)
    (r : Except Plugin.RError String) (hInv : Plugin.InvFull st) :
    Plugin.InvFull (Plugin.handle_new_pod st uid r).state := by
  unfold Plugin.handle_new_pod
  cases hl : alookup st.pods uid with
  | some ps => exact hInv
  | none =>
    dsimp only
    exact inv_insert_pod st uid _ hInv hl

theorem inv_handle_new_container (st : Plugin.InnerState)
    (uid cid cp pp : String) (r : Except Plugin.RError Nat)
    (hInv : Plugin.InvFull st) :
    Plugin.InvFull (Plugin.handle_new_container st uid cid cp pp r).state := by
  unfold Plugin.handle_new_container
  by_cases hdup : (alookup st.containers cid).isSome
  · rw [if_pos hdup]; exact hInv
  · rw [if_neg hdup]
    have hcid : alookup st.containers cid = none := by
      cases hx : alookup st.containers cid
      · rfl
      · rw [hx] at hdup; simp at hdup
    cases hl : alookup st.pods uid with
    | none =>
      dsimp only
      exact inv_insert_nopod st uid cid _ hInv hcid
    | some ps =>
      dsimp only
      cases hg : ps.group_state with
      | Failed =>
        dsimp only
        rw [← hg]
        exact inv_insert_container st uid cid
          (CgroupPath.compute_full_cgroup_path cp pp) .Partial ps hInv hcid hl
          (by simp) (by simp)
      | Exists gp =>
        dsimp only
        rw [← hg]
        exact inv_insert_container st uid cid
          (CgroupPath.compute_full_cgroup_path cp pp) _ ps hInv hcid hl
          (by
            cases r with
            | error e => simp
            | ok m => cases m <;> simp)
          (fun _ => ⟨gp, hg⟩)

theorem inv_remove_container (st : Plugin.InnerState) (uid cid : String)
    (hInv : Plugin.InvFull st)
    (hwf : ∀ cs, alookup st.containers cid = some cs → cs.pod_uid = uid) :
    Plugin.InvFull (Plugin.remove_container st uid cid).state := by
  unfold Plugin.remove_container
  cases hcs : alookup st.containers cid with
  | none =>
    have hrm : aremove st.containers cid = st.containers := aremove_of_alookup_none hcs
    cases hp : alookup st.pods uid with
    | none =>
      dsimp only
      rw [hrm]
      exact hInv
    | some ps =>
      dsimp only
      rw [hrm]
      refine inv_pods_update st uid ps _ hInv hp rfl rfl ?_
      intro gp hg
      exact ⟨gp, hg⟩
  | some cs =>
    have hpu : cs.pod_uid = uid := hwf cs hcs
    cases hp : alookup st.pods uid with
    | none =>
      dsimp only
      exact inv_remove_container_orphan st cid cs hInv hcs (by rw [hpu]; exact hp)
    | some ps =>
      have hcnt := hInv.2.2.1
      obtain ⟨hct, hcr⟩ := hcnt uid ps hp
      dsimp only
      refine inv_remove_update st uid cid cs ps _ hInv hcs hp hpu ?_ ?_ rfl
      · cases hcso : cs.state with
        | NoPod => simp [Plugin.podPredC, hcso]
        | Partial =>
          have hpos : 1 ≤ countP (Plugin.podPredC uid) st.containers :=
            countP_pos_of_mem (mem_of_alookup hcs)
              (by simp [Plugin.podPredC, hpu, hcso])
          simp [Plugin.podPredC, hpu, hcso]
          omega
        | Reconciled =>
          have hpos : 1 ≤ countP (Plugin.podPredC uid) st.containers :=
            countP_pos_of_mem (mem_of_alookup hcs)
              (by simp [Plugin.podPredC, hpu, hcso])
          simp [Plugin.podPredC, hpu, hcso]
          omega
      · cases hcso : cs.state with
        | NoPod => simp [Plugin.podPredR, hcso]
        | Partial => simp [Plugin.podPredR, hcso]
        | Reconciled =>
          have hpos : 1 ≤ countP (Plugin.podPredR uid) st.containers :=
            countP_pos_of_mem (mem_of_alookup hcs)
              (by simp [Plugin.podPredR, hpu, hcso])
          simp [Plugin.podPredR, hpu, hcso]
          omega

theorem inv_remove_pod_sandbox (st : Plugin.InnerState) (uid : String)
    (hInv : Plugin.InvFull st) :
    Plugin.InvFull (Plugin.remove_pod_sandbox st uid).state := by
  unfold Plugin.remove_pod_sandbox
  dsimp only
  exact inv_remove_pod st uid hInv

theorem inv_retry_group (st : Plugin.InnerState) (uid : String)
    (r : Except Plugin.RError String) (hInv : Plugin.InvFull st) :
    Plugin.InvFull (Plugin.retry_group_creation st uid r).state := by
  rcases rgc_state_char st uid r with h | ⟨ps, path, hl, hf, hr, h⟩
  · rw [h]; exact hInv
  · rw [h]
    refine inv_pods_update st uid ps _ hInv hl rfl rfl ?_
    intro gp hg
    rw [hf] at hg
    cases hg

theorem inv_retry_container (st : Plugin.InnerState) (cid : String)
    (r : Except Plugin.RError Nat) (hInv : Plugin.InvFull st) :
    Plugin.InvFull (Plugin.retry_container_reconcile st cid r).state := by
  rcases rcr_char st cid r with ⟨h, _, _⟩ | ⟨cs, ps, gp, hcs, hcss, hp, hg, hr, hout⟩
  · rw [h]; exact hInv
  · rw [hout]
    exact inv_transition st cid cs ps gp hInv hcs hcss hp hg

theorem inv_group_loop (oracles : Plugin.RetryOracles) (l : List String) :
    ∀ st : Plugin.InnerState, Plugin.InvFull st →
    Plugin.InvFull (Plugin.retry_group_loop oracles st l).1 := by
  induction l with
  | nil => intro st h; exact h
  | cons uid rest ih =>
    intro st h
    have h1 := inv_retry_group st uid (oracles.createRes uid) h
    rcases hq : Plugin.retry_group_loop oracles
      (Plugin.retry_group_creation st uid (oracles.createRes uid)).state rest with
      ⟨st2, evs2, atts2, r2⟩
    have h2 := ih (Plugin.retry_group_creation st uid (oracles.createRes uid)).state h1
    rw [hq] at h2
    cases hres : (Plugin.retry_group_creation st uid (oracles.createRes uid)).result with
    | ok v =>
      simp only [Plugin.retry_group_loop, hres, hq]
      exact h2
    | error e =>
      cases e with
      | PodNotFound =>
        simp only [Plugin.retry_group_loop, hres, hq]
        exact h2
      | ContainerNotFound =>
        simp only [Plugin.retry_group_loop, hres, hq]
        exact h1
      | Resctrl e' =>
        cases e' with
        | Capacity =>
          simp only [Plugin.retry_group_loop, hres, hq]
          exact h1
        | Other t =>
          simp only [Plugin.retry_group_loop, hres, hq]
          exact h1

theorem inv_container_loop (oracles : Plugin.RetryOracles) (l : List String) :
    ∀ st : Plugin.InnerState, Plugin.InvFull st →
    Plugin.InvFull (Plugin.retry_container_loop oracles st l).1 := by
  induction l with
  | nil => intro st h; exact h
  | cons cid rest ih =>
    intro st h
    have h1 := inv_retry_container st cid (oracles.reconcileRes cid) h
    rcases hq : Plugin.retry_container_loop oracles
      (Plugin.retry_container_reconcile st cid (oracles.reconcileRes cid)).state rest with
      ⟨st2, evs2, atts2, r2⟩
    have h2 := ih (Plugin.retry_container_reconcile st cid (oracles.reconcileRes cid)).state h1
    rw [hq] at h2
    cases hres : (Plugin.retry_container_reconcile st cid (oracles.reconcileRes cid)).result with
    | ok v =>
      simp only [Plugin.retry_container_loop, hres, hq]
      exact h2
    | error e =>
      cases e with
      | PodNotFound =>
        simp only [Plugin.retry_container_loop, hres, hq]
        exact h2
      | ContainerNotFound =>
        simp only [Plugin.retry_container_loop, hres, hq]
        exact h2
      | Resctrl e' =>
        simp only [Plugin.retry_container_loop, hres, hq]
        exact h1

theorem inv_retry_all (st : Plugin.InnerState) (oracles : Plugin.RetryOracles)
    (hInv : Plugin.InvFull st) :
    Plugin.InvFull (Plugin.retry_all_once st oracles).state := by
  unfold Plugin.retry_all_once
  rcases hq1 : Plugin.retry_group_loop oracles st (Plugin.failedSnapshot st) with
    ⟨st1, evs1, atts1, r1⟩
  have h1 : Plugin.InvFull st1 := by
    have h := inv_group_loop oracles (Plugin.failedSnapshot st) st hInv
    rw [hq1] at h
    exact h
  cases r1 with
  | some e => simp only [hq1]; exact h1
  | none =>
    rcases hq2 : Plugin.retry_container_loop oracles st1 (Plugin.partialSnapshot st) with
      ⟨st2, evs2, atts2, r2⟩
    have h2 : Plugin.InvFull st2 := by
      have h := inv_container_loop oracles (Plugin.partialSnapshot st) st1 h1
      rw [hq2] at h
      exact h
    cases r2 with
    | some e => simp only [hq1, hq2]; exact h2
    | none => simp only [hq1, hq2]; exact h2

theorem inv_applyOp (st : Plugin.InnerState) (op : Plugin.Op)
    (hInv : Plugin.InvFull st) (hwf : Plugin.wfOp st op = true) :
    Plugin.InvFull (Plugin.applyOp st op).1 := by
  cases op with
  | newPod uid r => exact inv_handle_new_pod st uid r hInv
  | newContainer uid cid cp pp r => exact inv_handle_new_container st uid cid cp pp r hInv
  | removeContainer uid cid =>
    refine inv_remove_container st uid cid hInv ?_
    intro cs hcs
    simp only [Plugin.wfOp, hcs, beq_iff_eq] at hwf
    exact hwf
  | removePod uid => exact inv_remove_pod_sandbox st uid hInv
  | retryGroup uid r => exact inv_retry_group st uid r hInv
  | retryContainer cid r => exact inv_retry_container st cid r hInv
  | retryAll oracles => exact inv_retry_all st oracles hInv

theorem inv_runTrace (ops : List Plugin.Op) :
    ∀ st : Plugin.InnerState, Plugin.InvFull st →
    Plugin.wfRun st ops = true → Plugin.InvFull (Plugin.runTrace st ops).1 := by
  induction ops with
  | nil => intro st h _; exact h
  | cons op rest ih =>
    intro st h hwf
    simp only [Plugin.wfRun, Bool.and_eq_true] at hwf
    have h1 := inv_applyOp st op h hwf.1
    have h2 := ih (Plugin.applyOp st op).1 h1 hwf.2
    have hgoal : (Plugin.runTrace st (op :: rest)).1 =
        (Plugin.runTrace (Plugin.applyOp st op).1 rest).1 := rfl
    rw [hgoal]
    exact h2

/-- C1 counterexample: a REMOVE_CONTAINER state change whose pod uid does
not match the removed container's recorded pod decrements the wrong pod's
counters; afterwards a successful retry_container_reconcile pushes
reconciled_containers above total_containers, falsifying the invariant for
this sequence of plugin operations from the empty state. -/
theorem claim_C1_counterexample :
    Plugin.podsInvB (Plugin.runState
      [.newPod "A" (.ok "gA"), .newPod "B" (.ok "gB"),
       .newContainer "A" "c1" "x:y:z" "/p" (.ok 1),
       .newContainer "B" "c2" "x:y:w" "/p" (.ok 1),
       .removeContainer "A" "c2",
       .retryContainer "c1" (.ok 0)]) = false := by decide

/-- C1 (amended): for every sequence of plugin operations from the empty
state in which each REMOVE_CONTAINER event names the pod its container was
registered under (as the NRI runtime guarantees), every pod entry in the
reachable state satisfies reconciled_containers <= total_containers, and
every Failed pod has reconciled_containers == 0. -/
theorem claim_C1_pod_invariant (ops : List Plugin.Op)
    (h : Plugin.wfRun Plugin.emptyState ops = true) :
    Plugin.podsInvB (Plugin.runState ops) = true :=
  invFull_podsInvB _ (inv_runTrace ops Plugin.emptyState invFull_empty h)

/-- Concrete operation sequence for the C1 witness, exercising every
operation kind including a retry_all_once pass. -/
def c1wOps : List Plugin.Op :=
  [.newPod "u" (.error .Capacity),
   .newContainer "u" "c" "a:b:c" "/p" (.ok 0),
   .retryAll ⟨fun _ => .ok "/r/pod_u", fun _ => .ok 0⟩,
   .newPod "v" (.ok "/r/pod_v"),
   .newContainer "v" "d" "a:b:d" "/p" (.ok 2),
   .retryContainer "d" (.ok 0),
   .retryGroup "u" (.ok "ignored"),
   .removeContainer "u" "c",
   .removePod "u"]

theorem claim_C1_pod_invariant_witness :
    Plugin.wfRun Plugin.emptyState c1wOps = true ∧
    Plugin.podsInvB (Plugin.runState c1wOps) = true :=
  ⟨by decide, claim_C1_pod_invariant c1wOps (by decide)⟩

theorem aupdate_self_eq {κ α : Type} [DecidableEq κ] {l : List (κ × α)}
    {k : κ} {v : α} (h : alookup l k = some v) : aupdate l k v = l := by
  induction l with
  | nil => cases h
  | cons kv rest ih =>
    obtain ⟨k', w⟩ := kv
    by_cases hk : k' = k
    · subst hk
      simp [alookup] at h
      simp [aupdate, h]
    · simp only [alookup, if_neg hk] at h
      simp [aupdate, hk, ih h]

/-- Adjacency against an optional previous event. -/
def adjCtx : Option Plugin.TEvent → Plugin.TEvent → Bool
  | none, _ => true
  | some p, e => Plugin.adjOkAmended p e

/-- The last event of `l`, falling back to the context `p`. -/
def lastCtx (p : Option Plugin.TEvent) (l : List Plugin.TEvent) : Option Plugin.TEvent :=
  match l.getLast? with
  | some e => some e
  | none => p

theorem lastCtx_cons (p : Option Plugin.TEvent) (e : Plugin.TEvent)
    (l : List Plugin.TEvent) : lastCtx p (e :: l) = lastCtx (some e) l := by
  cases l with
  | nil => rfl
  | cons f l' =>
    simp only [lastCtx, List.getLast?_cons_cons]
    cases h : (f :: l').getLast? with
    | some e' => rfl
    | none => simp [List.getLast?_eq_none] at h

theorem chainOkA_cons (p : Option Plugin.TEvent) (e : Plugin.TEvent)
    (rest : List Plugin.TEvent) :
    Plugin.chainOkAmended p (e :: rest) =
      (adjCtx p e && Plugin.chainOkAmended (some e) rest) := by
  cases p <;> simp [Plugin.chainOkAmended, adjCtx]

theorem chainOkA_append (m : List Plugin.TEvent) :
    ∀ (l : List Plugin.TEvent) (p : Option Plugin.TEvent),
    Plugin.chainOkAmended p (l ++ m) =
      (Plugin.chainOkAmended p l && Plugin.chainOkAmended (lastCtx p l) m) := by
  intro l
  induction l with
  | nil => intro p; simp [Plugin.chainOkAmended, lastCtx]
  | cons e l ih =>
    intro p
    simp [List.cons_append, chainOkA_cons, ih (some e), lastCtx_cons, Bool.and_assoc]

/-- Relation between a pod's stored state and the tail of its projected
event trace: a present pod's last event is the AddOrUpdate carrying exactly
its stored fields; an absent pod has an empty trace or one ending in
Removed. -/
def podLast (uid : String) : Option Plugin.PodState → List Plugin.TEvent → Prop
  | some ps, tr => ∃ f, tr.getLast? = some (f, Plugin.emitAddOrUpdate uid ps)
  | none, tr => tr = [] ∨ ∃ f, tr.getLast? = some (f, .Removed uid)

/-- Induction invariant for the amended claim C2: pods keys distinct, every
per-pod projection satisfies the amended chain condition, and the last
projected event matches the stored pod state. -/
def TraceOk (st : Plugin.InnerState) (tr : List Plugin.TEvent) : Prop :=
  (st.pods.map Prod.fst).Nodup ∧
  ∀ uid, Plugin.amendedC2Holds (Plugin.projectUid uid tr) = true ∧
    podLast uid (alookup st.pods uid) (Plugin.projectUid uid tr)

theorem traceOk_empty : TraceOk Plugin.emptyState [] := by
  refine ⟨by simp [Plugin.emptyState], ?_⟩
  intro uid
  exact ⟨rfl, Or.inl rfl⟩

theorem traceOk_of_pods_eq (st st' : Plugin.InnerState) (tr : List Plugin.TEvent)
    (h : st'.pods = st.pods) (ht : TraceOk st tr) : TraceOk st' tr := by
  obtain ⟨hN, hAll⟩ := ht
  exact ⟨by rw [h]; exact hN, fun uid => by rw [h]; exact hAll uid⟩

theorem traceOk_snoc_aou (st st' : Plugin.InnerState) (tr : List Plugin.TEvent)
    (uid : String) (ps1 : Plugin.PodState) (flag : Bool)
    (hpods : st'.pods = aupdate st.pods uid ps1)
    (ht : TraceOk st tr)
    (hcompat : ∀ ps, alookup st.pods uid = some ps →
      flag = true ∨ Plugin.pairLe (ps.total_containers, ps.reconciled_containers)
        (ps1.total_containers, ps1.reconciled_containers) = true) :
    TraceOk st' (tr ++ [(flag, Plugin.emitAddOrUpdate uid ps1)]) := by
  obtain ⟨hN, hAll⟩ := ht
  refine ⟨by rw [hpods]; exact aupdate_keys_nodup _ _ hN, ?_⟩
  intro u
  obtain ⟨hchain, hlast⟩ := hAll u
  by_cases he : u = uid
  · subst he
    have hproj : Plugin.projectUid u (tr ++ [(flag, Plugin.emitAddOrUpdate u ps1)]) =
        Plugin.projectUid u tr ++ [(flag, Plugin.emitAddOrUpdate u ps1)] := by
      simp [Plugin.projectUid, List.filter_append, Plugin.evUid, Plugin.emitAddOrUpdate]
    constructor
    · rw [hproj]
      show Plugin.chainOkAmended none _ = true
      rw [chainOkA_append, Bool.and_eq_true]
      refine ⟨hchain, ?_⟩
      rw [chainOkA_cons, Bool.and_eq_true]
      refine ⟨?_, rfl⟩
      cases hst : alookup st.pods u with
      | some ps =>
        rw [hst] at hlast
        rcases hlast with ⟨f, hf⟩
        have hl : lastCtx none (Plugin.projectUid u tr) =
            some (f, Plugin.emitAddOrUpdate u ps) := by
          simp [lastCtx, hf]
        rw [hl]
        rcases hcompat ps hst with hflag | hple
        · subst hflag
          simp [adjCtx, Plugin.adjOkAmended, Plugin.emitAddOrUpdate]
        · simp [adjCtx, Plugin.adjOkAmended, Plugin.emitAddOrUpdate, hple]
      | none =>
        rw [hst] at hlast
        rcases hlast with hnil | ⟨f, hf⟩
        · rw [hnil]
          rfl
        · have hl : lastCtx none (Plugin.projectUid u tr) =
              some (f, .Removed u) := by
            simp [lastCtx, hf]
          rw [hl]
          rfl
    · rw [hpods, alookup_aupdate_self, hproj]
      exact ⟨flag, by simp⟩
  · have hproj : Plugin.projectUid u (tr ++ [(flag, Plugin.emitAddOrUpdate uid ps1)]) =
        Plugin.projectUid u tr := by
      have : (Plugin.evUid (Plugin.emitAddOrUpdate uid ps1) == u) = false := by
        simp [Plugin.evUid, Plugin.emitAddOrUpdate]
        exact fun hx => he hx.symm
      simp [Plugin.projectUid, List.filter_append, this]
    constructor
    · rw [hproj]; exact hchain
    · rw [hproj, hpods, alookup_aupdate_ne _ _ _ _ he]
      exact hlast

theorem traceOk_snoc_removed (st st' : Plugin.InnerState) (tr : List Plugin.TEvent)
    (uid : String)
    (hpods : st'.pods = aremove st.pods uid)
    (ht : TraceOk st tr) :
    TraceOk st' (tr ++ [(false, .Removed uid)]) := by
  obtain ⟨hN, hAll⟩ := ht
  refine ⟨by rw [hpods]; exact aremove_keys_nodup _ hN, ?_⟩
  intro u
  obtain ⟨hchain, hlast⟩ := hAll u
  by_cases he : u = uid
  · subst he
    have hproj : Plugin.projectUid u (tr ++ [((false : Bool), .Removed u)]) =
        Plugin.projectUid u tr ++ [((false : Bool), .Removed u)] := by
      simp [Plugin.projectUid, List.filter_append, Plugin.evUid]
    constructor
    · rw [hproj]
      show Plugin.chainOkAmended none _ = true
      rw [chainOkA_append, Bool.and_eq_true]
      refine ⟨hchain, ?_⟩
      rw [chainOkA_cons, Bool.and_eq_true]
      refine ⟨?_, rfl⟩
      cases hq : lastCtx none (Plugin.projectUid u tr) with
      | none => rfl
      | some p =>
        obtain ⟨f, ev⟩ := p
        cases ev <;> rfl
    · rw [hpods, alookup_aremove_self hN, hproj]
      exact Or.inr ⟨false, by simp⟩
  · have hproj : Plugin.projectUid u (tr ++ [((false : Bool), .Removed uid)]) =
        Plugin.projectUid u tr := by
      have : (Plugin.evUid (.Removed uid) == u) = false := by
        simp [Plugin.evUid]
        exact fun hx => he hx.symm
      simp [Plugin.projectUid, List.filter_append, this]
    constructor
    · rw [hproj]; exact hchain
    · rw [hproj, hpods, alookup_aremove_ne _ _ _ he]
      exact hlast

theorem rgc_events_char (st : Plugin.InnerState) (uid : String)
    (r : Except Plugin.RError String) :
    ((Plugin.retry_group_creation st uid r).state = st ∧
      (Plugin.retry_group_creation st uid r).events = []) ∨
    (∃ ps path, alookup st.pods uid = some ps ∧
      ps.group_state = Plugin.ResctrlGroupState.Failed ∧ r = .ok path ∧
      (Plugin.retry_group_creation st uid r).state =
        { st with pods := aupdate st.pods uid { ps with group_state := Plugin.ResctrlGroupState.Exists path } } ∧
      (Plugin.retry_group_creation st uid r).events =
        [Plugin.emitAddOrUpdate uid
          { ps with group_state := Plugin.ResctrlGroupState.Exists path }]) := by
  cases hl : alookup st.pods uid with
  | none => left; simp [Plugin.retry_group_creation, hl]
  | some ps =>
    cases hg : ps.group_state with
    | Exists p => left; simp [Plugin.retry_group_creation, hl, hg]
    | Failed =>
      cases r with
      | error e => left; simp [Plugin.retry_group_creation, hl, hg]
      | ok path =>
        right
        exact ⟨ps, path, rfl, hg, rfl,
          by simp [Plugin.retry_group_creation, hl, hg],
          by simp [Plugin.retry_group_creation, hl, hg]⟩

theorem traceOk_rgc (st : Plugin.InnerState) (uid : String)
    (r : Except Plugin.RError String) (tr : List Plugin.TEvent)
    (ht : TraceOk st tr) :
    TraceOk (Plugin.retry_group_creation st uid r).state
      (tr ++ (Plugin.retry_group_creation st uid r).events.map
        (fun e => ((false : Bool), e))) := by
  rcases rgc_events_char st uid r with ⟨hs, he⟩ | ⟨ps, path, hl, hf, hr, hs, he⟩
  · rw [he]
    simp only [List.map_nil, List.append_nil]
    exact traceOk_of_pods_eq _ _ _ (by rw [hs]) ht
  · rw [he, hs]
    simp only [List.map_cons, List.map_nil]
    refine traceOk_snoc_aou st _ tr uid _ false rfl ht ?_
    intro ps0 h0
    rw [hl] at h0
    cases h0
    right
    simp [Plugin.pairLe]

theorem traceOk_hnp (st : Plugin.InnerState) (uid : String)
    (r : Except Plugin.RError String) (tr : List Plugin.TEvent)
    (ht : TraceOk st tr) :
    TraceOk (Plugin.handle_new_pod st uid r).state
      (tr ++ (Plugin.handle_new_pod st uid r).events.map
        (fun e => ((false : Bool), e))) := by
  unfold Plugin.handle_new_pod
  cases hl : alookup st.pods uid with
  | some ps =>
    dsimp only
    refine traceOk_snoc_aou st _ tr uid ps false ?_ ht ?_
    · show st.pods = aupdate st.pods uid ps
      exact (aupdate_self_eq hl).symm
    · intro ps0 h0
      rw [hl] at h0
      cases h0
      right
      simp [Plugin.pairLe]
  | none =>
    dsimp only
    refine traceOk_snoc_aou st _ tr uid _ false rfl ht ?_
    intro ps0 h0
    rw [hl] at h0
    cases h0

theorem traceOk_hnc (st : Plugin.InnerState) (uid cid cp pp : String)
    (r : Except Plugin.RError Nat) (tr : List Plugin.TEvent)
    (ht : TraceOk st tr) :
    TraceOk (Plugin.handle_new_container st uid cid cp pp r).state
      (tr ++ (Plugin.handle_new_container st uid cid cp pp r).events.map
        (fun e => ((false : Bool), e))) := by
  unfold Plugin.handle_new_container
  by_cases hdup : (alookup st.containers cid).isSome
  · rw [if_pos hdup]
    simpa using ht
  · rw [if_neg hdup]
    cases hl : alookup st.pods uid with
    | none =>
      dsimp only
      simpa using traceOk_of_pods_eq st _ tr rfl ht
    | some ps =>
      dsimp only
      cases hg : ps.group_state with
      | Failed =>
        dsimp only
        refine traceOk_snoc_aou st _ tr uid _ false rfl ht ?_
        intro ps0 h0
        rw [hl] at h0
        cases h0
        right
        simp [Plugin.pairLe, Nat.lt_succ_self]
      | Exists gp =>
        dsimp only
        refine traceOk_snoc_aou st _ tr uid _ false rfl ht ?_
        intro ps0 h0
        rw [hl] at h0
        cases h0
        right
        simp [Plugin.pairLe, Nat.lt_succ_self]

theorem traceOk_rc (st : Plugin.InnerState) (uid cid : String)
    (tr : List Plugin.TEvent) (ht : TraceOk st tr) :
    TraceOk (Plugin.remove_container st uid cid).state
      (tr ++ (Plugin.remove_container st uid cid).events.map
        (fun e => ((true : Bool), e))) := by
  unfold Plugin.remove_container
  cases hp : alookup st.pods uid with
  | none =>
    dsimp only
    simpa using traceOk_of_pods_eq st _ tr rfl ht
  | some ps =>
    dsimp only
    refine traceOk_snoc_aou st _ tr uid _ true rfl ht ?_
    intro ps0 h0
    exact Or.inl rfl

theorem traceOk_rp (st : Plugin.InnerState) (uid : String)
    (tr : List Plugin.TEvent) (ht : TraceOk st tr) :
    TraceOk (Plugin.remove_pod_sandbox st uid).state
      (tr ++ (Plugin.remove_pod_sandbox st uid).events.map
        (fun e => ((false : Bool), e))) := by
  unfold Plugin.remove_pod_sandbox
  dsimp only
  exact traceOk_snoc_removed st _ tr uid rfl ht

theorem traceOk_rcr (st : Plugin.InnerState) (cid : String)
    (r : Except Plugin.RError Nat) (tr : List Plugin.TEvent)
    (ht : TraceOk st tr) :
    TraceOk (Plugin.retry_container_reconcile st cid r).state
      (tr ++ (Plugin.retry_container_reconcile st cid r).events.map
        (fun e => ((false : Bool), e))) := by
  rcases rcr_char st cid r with ⟨hs, he, _⟩ | ⟨cs, ps, gp, hcs, hcss, hp, hg, hr, hout⟩
  · rw [he]
    simp only [List.map_nil, List.append_nil]
    exact traceOk_of_pods_eq _ _ _ (by rw [hs]) ht
  · rw [hout]
    simp only [List.map_cons, List.map_nil]
    refine traceOk_snoc_aou st _ tr cs.pod_uid _ false rfl ht ?_
    intro ps0 h0
    rw [hp] at h0
    cases h0
    right
    simp [Plugin.pairLe, Nat.le_succ]

theorem traceOk_group_loop (oracles : Plugin.RetryOracles) (l : List String) :
    ∀ (st : Plugin.InnerState) (tr : List Plugin.TEvent), TraceOk st tr →
    TraceOk (Plugin.retry_group_loop oracles st l).1
      (tr ++ (Plugin.retry_group_loop oracles st l).2.1.map
        (fun e => ((false : Bool), e))) := by
  induction l with
  | nil => intro st tr ht; simpa [Plugin.retry_group_loop] using ht
  | cons uid rest ih =>
    intro st tr ht
    have h1 := traceOk_rgc st uid (oracles.createRes uid) tr ht
    rcases hq : Plugin.retry_group_loop oracles
      (Plugin.retry_group_creation st uid (oracles.createRes uid)).state rest with
      ⟨st2, evs2, atts2, r2⟩
    have h2 := ih (Plugin.retry_group_creation st uid (oracles.createRes uid)).state
      (tr ++ (Plugin.retry_group_creation st uid (oracles.createRes uid)).events.map
        (fun e => ((false : Bool), e))) h1
    rw [hq] at h2
    cases hres : (Plugin.retry_group_creation st uid (oracles.createRes uid)).result with
    | ok v =>
      simp only [Plugin.retry_group_loop, hres, hq]
      simpa [List.map_append, List.append_assoc] using h2
    | error e =>
      cases e with
      | PodNotFound =>
        simp only [Plugin.retry_group_loop, hres, hq]
        simpa [List.map_append, List.append_assoc] using h2
      | ContainerNotFound =>
        simp only [Plugin.retry_group_loop, hres, hq]
        exact h1
      | Resctrl e' =>
        cases e' with
        | Capacity =>
          simp only [Plugin.retry_group_loop, hres, hq]
          exact h1
        | Other t =>
          simp only [Plugin.retry_group_loop, hres, hq]
          exact h1

theorem traceOk_container_loop (oracles : Plugin.RetryOracles) (l : List String) :
    ∀ (st : Plugin.InnerState) (tr : List Plugin.TEvent), TraceOk st tr →
    TraceOk (Plugin.retry_container_loop oracles st l).1
      (tr ++ (Plugin.retry_container_loop oracles st l).2.1.map
        (fun e => ((false : Bool), e))) := by
  induction l with
  | nil => intro st tr ht; simpa [Plugin.retry_container_loop] using ht
  | cons cid rest ih =>
    intro st tr ht
    have h1 := traceOk_rcr st cid (oracles.reconcileRes cid) tr ht
    rcases hq : Plugin.retry_container_loop oracles
      (Plugin.retry_container_reconcile st cid (oracles.reconcileRes cid)).state rest with
      ⟨st2, evs2, atts2, r2⟩
    have h2 := ih (Plugin.retry_container_reconcile st cid (oracles.reconcileRes cid)).state
      (tr ++ (Plugin.retry_container_reconcile st cid (oracles.reconcileRes cid)).events.map
        (fun e => ((false : Bool), e))) h1
    rw [hq] at h2
    cases hres : (Plugin.retry_container_reconcile st cid (oracles.reconcileRes cid)).result with
    | ok v =>
      simp only [Plugin.retry_container_loop, hres, hq]
      simpa [List.map_append, List.append_assoc] using h2
    | error e =>
      cases e with
      | PodNotFound =>
        simp only [Plugin.retry_container_loop, hres, hq]
        simpa [List.map_append, List.append_assoc] using h2
      | ContainerNotFound =>
        simp only [Plugin.retry_container_loop, hres, hq]
        simpa [List.map_append, List.append_assoc] using h2
      | Resctrl e' =>
        simp only [Plugin.retry_container_loop, hres, hq]
        exact h1

theorem traceOk_retry_all (st : Plugin.InnerState) (oracles : Plugin.RetryOracles)
    (tr : List Plugin.TEvent) (ht : TraceOk st tr) :
    TraceOk (Plugin.retry_all_once st oracles).state
      (tr ++ (Plugin.retry_all_once st oracles).events.map
        (fun e => ((false : Bool), e))) := by
  unfold Plugin.retry_all_once
  rcases hq1 : Plugin.retry_group_loop oracles st (Plugin.failedSnapshot st) with
    ⟨st1, evs1, atts1, r1⟩
  have h1 : TraceOk st1 (tr ++ evs1.map (fun e => ((false : Bool), e))) := by
    have h := traceOk_group_loop oracles (Plugin.failedSnapshot st) st tr ht
    rw [hq1] at h
    exact h
  cases r1 with
  | some e => simp only [hq1]; exact h1
  | none =>
    rcases hq2 : Plugin.retry_container_loop oracles st1 (Plugin.partialSnapshot st) with
      ⟨st2, evs2, atts2, r2⟩
    have h2 : TraceOk st2 ((tr ++ evs1.map (fun e => ((false : Bool), e))) ++
        evs2.map (fun e => ((false : Bool), e))) := by
      have h := traceOk_container_loop oracles (Plugin.partialSnapshot st) st1
        (tr ++ evs1.map (fun e => ((false : Bool), e))) h1
      rw [hq2] at h
      exact h
    cases r2 with
    | some e =>
      simp only [hq1, hq2]
      simpa [List.map_append, List.append_assoc] using h2
    | none =>
      simp only [hq1, hq2]
      simpa [List.map_append, List.append_assoc] using h2

theorem traceOk_applyOp (st : Plugin.InnerState) (op : Plugin.Op)
    (tr : List Plugin.TEvent) (ht : TraceOk st tr) :
    TraceOk (Plugin.applyOp st op).1
      (tr ++ (Plugin.applyOp st op).2.map
        (fun e => (op.fromRemoveContainer, e))) := by
  cases op with
  | newPod uid r => exact traceOk_hnp st uid r tr ht
  | newContainer uid cid cp pp r => exact traceOk_hnc st uid cid cp pp r tr ht
  | removeContainer uid cid => exact traceOk_rc st uid cid tr ht
  | removePod uid => exact traceOk_rp st uid tr ht
  | retryGroup uid r => exact traceOk_rgc st uid r tr ht
  | retryContainer cid r => exact traceOk_rcr st cid r tr ht
  | retryAll oracles => exact traceOk_retry_all st oracles tr ht

theorem traceOk_runTrace (ops : List Plugin.Op) :
    ∀ (st : Plugin.InnerState) (tr : List Plugin.TEvent), TraceOk st tr →
    TraceOk (Plugin.runTrace st ops).1 (tr ++ (Plugin.runTrace st ops).2) := by
  induction ops with
  | nil => intro st tr ht; simpa [Plugin.runTrace] using ht
  | cons op rest ih =>
    intro st tr ht
    have h1 := traceOk_applyOp st op tr ht
    have h2 := ih (Plugin.applyOp st op).1
      (tr ++ (Plugin.applyOp st op).2.map (fun e => (op.fromRemoveContainer, e))) h1
    have hgoal1 : (Plugin.runTrace st (op :: rest)).1 =
        (Plugin.runTrace (Plugin.applyOp st op).1 rest).1 := rfl
    have hgoal2 : (Plugin.runTrace st (op :: rest)).2 =
        (Plugin.applyOp st op).2.map (fun e => (op.fromRemoveContainer, e)) ++
          (Plugin.runTrace (Plugin.applyOp st op).1 rest).2 := rfl
    rw [hgoal1, hgoal2, ← List.append_assoc]
    exact h2

/-- C2 counterexample: starting from the empty state, a pod with one
reconciled container loses that container (REMOVE_CONTAINER emits an
AddOrUpdate whose counter pair (0,0) is lexicographically below the
previous (1,1)), and a second REMOVE_POD_SANDBOX for the already removed
pod emits a second consecutive Removed; the projected per-pod event
sequence therefore violates the claimed monotonicity/ordering property. -/
theorem claim_C2_counterexample :
    Plugin.claimC2Holds ((Plugin.projectUid "u" (Plugin.runEvents
      [.newPod "u" (.ok "g"),
       .newContainer "u" "c" "a:b:c" "/p" (.ok 0),
       .removeContainer "u" "c",
       .removePod "u",
       .removePod "u"])).map Prod.snd) = false := by decide

/-- C2 (amended): for every sequence of plugin operations from the empty
state, the events emitted for any single pod uid satisfy the amended
ordering discipline: consecutive AddOrUpdate counter pairs are
lexicographically non-decreasing except when the later event was emitted
by a REMOVE_CONTAINER state change, and redundant Removed events are
permitted. -/
theorem claim_C2_amended (ops : List Plugin.Op) (uid : String) :
    Plugin.amendedC2Holds (Plugin.projectUid uid (Plugin.runEvents ops)) = true := by
  have h := traceOk_runTrace ops Plugin.emptyState [] traceOk_empty
  rw [List.nil_append] at h
  exact (h.2 uid).1
